import Mathlib

/-!
Verification of the message-to-record extraction pipeline and derived
metrics engine of the `analise-sinais-trading` repository.

The Python source is shallowly embedded: messages are JSON-like values
(`PyVal`), the compiled regular expressions are embedded as executable
matchers over `List Char` (with the backtracking the patterns need),
float arithmetic is modelled exactly over `ℚ`, and code that can raise
(`TypeError` on non-string text, `IndexError` on an empty stake ladder,
out-of-range `fromtimestamp`) returns `Except`/`Option`.
-/

/-! ## A small model of Python values (the JSON shapes the code probes) -/

/-- A Python/JSON value as the message dictionaries hold them. -/
inductive PyVal where
  | none : PyVal
  | str : String → PyVal
  | int : Int → PyVal
  | list : List PyVal → PyVal
  | dict : List (String × PyVal) → PyVal

/-- Python truthiness of a value (`if not s: ...`). -/
def pyTruthy : PyVal → Bool
  | PyVal.none => false
  | PyVal.str s => s ≠ ""
  | PyVal.int n => n ≠ 0
  | PyVal.list l => !l.isEmpty
  | PyVal.dict d => !d.isEmpty

mutual

/-- Python `repr` of a value (used by `str()` on non-string values). -/
def pyRepr : PyVal → String
  | PyVal.none => "None"
  | PyVal.str s => "\x27" ++ s ++ "\x27"
  | PyVal.int n => toString n
  | PyVal.list l => "[" ++ pyReprList l ++ "]"
  | PyVal.dict d => "\x7b" ++ pyReprDict d ++ "\x7d"

def pyReprList : List PyVal → String
  | [] => ""
  | [v] => pyRepr v
  | v :: w :: r => pyRepr v ++ ", " ++ pyReprList (w :: r)

def pyReprDict : List (String × PyVal) → String
  | [] => ""
  | [(k, v)] => "\x27" ++ k ++ "\x27: " ++ pyRepr v
  | (k, v) :: e :: r => "\x27" ++ k ++ "\x27: " ++ pyRepr v ++ ", " ++ pyReprDict (e :: r)

end

/-- Python `str()` of a value. -/
def pyStr : PyVal → String
  | PyVal.str s => s
  | v => pyRepr v

/-- The raised-exception kinds the embedded code can produce. -/
inductive PyErr where
  | typeError : PyErr
deriving DecidableEq

/-- A message dictionary, as a key/value association list. -/
abbrev Msg := List (String × PyVal)

/-- `msg.get(k)` without a default: `some v` when the key is present. -/
def msgFind (m : Msg) (k : String) : Option PyVal :=
  (m.find? (fun p => p.1 = k)).map (·.2)

/-- `msg.get(k, d)`. -/
def msgGetD (m : Msg) (k : String) (d : PyVal) : PyVal :=
  (msgFind m k).getD d

/-- Python `a or b` on values (first truthy operand). -/
def pyOr (a b : PyVal) : PyVal := if pyTruthy a then a else b

/-! ## Character and string utilities mirroring the Python string methods -/

/-- Whitespace as `str.strip` removes it. -/
def isPySpace (c : Char) : Bool :=
  c = ' ' || c = '\t' || c = '\n' || c = '\r' || c = '\x0b' || c = '\x0c'

def pyStripList (l : List Char) : List Char :=
  ((l.dropWhile isPySpace).reverse.dropWhile isPySpace).reverse

/-- Python `str.strip()`. -/
def pyStrip (s : String) : String := ⟨pyStripList s.data⟩

/-- The line-break characters `str.splitlines` splits on. -/
def isLineBreak (c : Char) : Bool :=
  c = '\n' || c = '\r' || c = '\x0b' || c = '\x0c' || c = '\x1c' ||
  c = '\x1d' || c = '\x1e' || c = '\x85' || c = '\u2028' || c = '\u2029'

/-- Replace every line break (with `CR LF` as a single break) by one space.
`pyStrip` of this agrees with the source's `" ".join(s.splitlines()).strip()`:
the two can differ only in trailing spaces produced by trailing breaks, which
the final `strip` removes. -/
def collapseNL : List Char → List Char
  | [] => []
  | '\r' :: '\n' :: r => ' ' :: collapseNL r
  | c :: r => (if isLineBreak c then ' ' else c) :: collapseNL r

/-- The source's `" ".join(str(text).splitlines()).strip()` one-line collapse. -/
def pyCollapse (s : String) : String := pyStrip ⟨collapseNL s.data⟩

def digitVal (c : Char) : Nat := c.toNat - '0'.toNat

/-- Value of a decimal digit string, as Python `int` reads it. -/
def natOfDigits (l : List Char) : Nat :=
  l.foldl (fun a c => 10 * a + digitVal c) 0

/-- Case-insensitive character comparison (ASCII, as the patterns need). -/
def ciChar (a b : Char) : Bool := a.toLower = b.toLower

/-- Match the pattern characters case-insensitively at the head of the input,
returning the rest of the input on success. -/
def ciStartsWith : List Char → List Char → Option (List Char)
  | [], l => some l
  | _ :: _, [] => Option.none
  | p :: ps, c :: cs => if ciChar c p then ciStartsWith ps cs else Option.none

/-- The whole input is case-insensitively equal to the pattern. -/
def ciEqList (l : List Char) (pat : String) : Bool :=
  ciStartsWith pat.data l = some []

def startsWithList : List Char → List Char → Bool
  | [], _ => true
  | _ :: _, [] => false
  | a :: ps, b :: ls => a = b && startsWithList ps ls

/-- Case-sensitive substring containment, Python's `needle in text`. -/
def containsSubList (n : List Char) : List Char → Bool
  | [] => startsWithList n []
  | c :: r => startsWithList n (c :: r) || containsSubList n r

def containsSub (needle s : String) : Bool := containsSubList needle.data s.data

/-- Python `"x" in v` for an arbitrary value: substring on strings, element
equality on lists, key membership on dicts, `TypeError` otherwise. -/
def pyContains (needle : String) : PyVal → Except PyErr Bool
  | PyVal.str s => Except.ok (containsSub needle s)
  | PyVal.list l =>
    Except.ok (l.any (fun v => match v with
      | PyVal.str s => s = needle
      | _ => false))
  | PyVal.dict d => Except.ok (d.any (fun p => p.1 = needle))
  | _ => Except.error PyErr.typeError

/-! ## Character classes of the embedded regular expressions -/

/-- `[A-Z0-9\-\_]` under `re.IGNORECASE`. -/
def isPairChar (c : Char) : Bool := c.isAlphanum || c = '-' || c = '_'

/-- `\w` (ASCII reading). -/
def isWordChar (c : Char) : Bool := c.isAlphanum || c = '_'

/-- `[¹²³\d]`, the optional superscript / digit gale mark. -/
def isSupChar (c : Char) : Bool := c = '¹' || c = '²' || c = '³' || c.isDigit

/-- `[✅❌🃏]`, the leading status glyph of a resolved line. -/
def isMarkChar (c : Char) : Bool := c = '✅' || c = '❌' || c = '🃏'

/-- `[\d\.]`, the payout number characters. -/
def isNumDotChar (c : Char) : Bool := c.isDigit || c = '.'

def skipWs (l : List Char) : List Char := l.dropWhile isPySpace

/-- `\s*-\s*`, the field separator of a resolved line. -/
def sepDash (l : List Char) : Option (List Char) :=
  match skipWs l with
  | '-' :: r => some (skipWs r)
  | _ => Option.none

/-- `\d{2}:\d{2}:\d{2}` at the head of the input, returning the captured
time text and the rest. -/
def matchTime8R : List Char → Option (String × List Char)
  | a :: b :: c :: d :: e :: f :: g :: h :: rest =>
    if a.isDigit && b.isDigit && c = ':' && d.isDigit && e.isDigit &&
        f = ':' && g.isDigit && h.isDigit then
      some (⟨[a, b, c, d, e, f, g, h]⟩, rest)
    else Option.none
  | _ => Option.none

/-- Greedy-with-backtracking match of a nonempty character-class run:
try the prefixes of the maximal run longest-first, handing each candidate
capture and the remaining input to the continuation. This is exactly the
alternative order a backtracking `cls+` uses. -/
def tryRunFrom {α : Type} (run rest : List Char)
    (cont : List Char → List Char → Option α) : Nat → Option α
  | 0 => Option.none
  | Nat.succ i =>
    (cont (run.take (i + 1)) (run.drop (i + 1) ++ rest)) <|>
      tryRunFrom run rest cont i

def tryRun {α : Type} (cls : Char → Bool) (l : List Char)
    (cont : List Char → List Char → Option α) : Option α :=
  tryRunFrom (l.takeWhile cls) (l.dropWhile cls) cont (l.takeWhile cls).length

/-! ## The resolved-line recognizer (`RESOLVED_RE`, identical in every module)

`^([✅❌🃏])([¹²³\d]?)\s*([A-Z0-9\-\_]+(?:-OTC)?)\s*-\s*`
`(\d{2}:\d{2}:\d{2})\s*-\s*(\w+)\s*-\s*(\w+)\s*-\s*(WIN|LOSS|DOJI)$`,
compiled with `re.IGNORECASE`. The `(?:-OTC)?` tail adds no strings beyond
what the class run already covers (its characters are all in the class), so
the capture is the class run itself. -/

structure RCaps where
  sup : String
  pair : String
  time : String
  tf : String
  dir : String
  result : String
deriving DecidableEq, Repr

/-- `(WIN|LOSS|DOJI)$`: the remaining input must be one of the result words,
case-insensitively; the capture is the raw text. -/
def matchResultEnd (l : List Char) : Option String :=
  if ciEqList l "WIN" || ciEqList l "LOSS" || ciEqList l "DOJI" then some ⟨l⟩
  else Option.none

def matchAfterSup (sup : String) (l1 : List Char) : Option RCaps :=
  tryRun isPairChar (skipWs l1) (fun pairRun rest2 => do
    let rest3 ← sepDash rest2
    let (timeS, rest4) ← matchTime8R rest3
    let rest5 ← sepDash rest4
    tryRun isWordChar rest5 (fun tfRun rest6 => do
      let rest7 ← sepDash rest6
      tryRun isWordChar rest7 (fun dirRun rest8 => do
        let rest9 ← sepDash rest8
        let res ← matchResultEnd rest9
        pure { sup := sup, pair := ⟨pairRun⟩, time := timeS, tf := ⟨tfRun⟩,
               dir := ⟨dirRun⟩, result := res })))

/-- `re.match` of `RESOLVED_RE` against the one-line text. -/
def matchResolvedL (l : List Char) : Option RCaps :=
  match l with
  | c0 :: r0 =>
    if isMarkChar c0 then
      (match r0 with
       | c1 :: r1 =>
         if isSupChar c1 then matchAfterSup ⟨[c1]⟩ r1 else Option.none
       | [] => Option.none) <|> matchAfterSup "" r0
    else Option.none
  | [] => Option.none

def matchResolved (s : String) : Option RCaps := matchResolvedL s.data

/-! ## The open-signal sub-pattern searches (`parse_signal_block`) -/

/-- `re.search(r"Ativo:\s*([A-Z0-9\-\_]+(?:-OTC)?)", text, re.IGNORECASE)`:
scan for the first position where the literal matches and a nonempty class
run follows; the capture is the maximal run (nothing follows the group, so
no backtracking inside it can be observed). -/
def matchAtivoAt (l : List Char) : Option String := do
  let r1 ← ciStartsWith "ativo:".data l
  let r2 := skipWs r1
  let run := r2.takeWhile isPairChar
  if run = [] then Option.none else some ⟨run⟩

def searchAtivo : List Char → Option String
  | [] => matchAtivoAt []
  | c :: r => matchAtivoAt (c :: r) <|> searchAtivo r

/-- `re.search(r"Hor[aá]rio:\s*(\d{2}:\d{2}:\d{2})", text, re.IGNORECASE)`. -/
def matchHorarioAt (l : List Char) : Option String := do
  let r1 ← ciStartsWith "hor".data l
  match r1 with
  | a :: r2 =>
    if a = 'a' || a = 'A' || a = 'á' || a = 'Á' then do
      let r3 ← ciStartsWith "rio:".data r2
      let (t, _) ← matchTime8R (skipWs r3)
      pure t
    else Option.none
  | [] => Option.none

def searchHorario : List Char → Option String
  | [] => matchHorarioAt []
  | c :: r => matchHorarioAt (c :: r) <|> searchHorario r

/-- `re.search(r"Payout:\s*([\d\.]+)\s*%", text, re.IGNORECASE)`. Shrinking
the greedy number run only exposes a digit or dot where `\s*%` must match,
so the maximal run is the only viable capture at a given position. -/
def matchPayoutAt (l : List Char) : Option String := do
  let r1 ← ciStartsWith "payout:".data l
  let r2 := skipWs r1
  let run := r2.takeWhile isNumDotChar
  if run = [] then Option.none
  else
    match skipWs (r2.dropWhile isNumDotChar) with
    | '%' :: _ => some ⟨run⟩
    | _ => Option.none

def searchPayout : List Char → Option String
  | [] => matchPayoutAt []
  | c :: r => matchPayoutAt (c :: r) <|> searchPayout r

/-- Python `float` on a `[\d\.]+` capture: at most one dot and at least one
digit; exact rational value. -/
def parseFloatQ (l : List Char) : Option ℚ :=
  match l.splitOn '.' with
  | [i] => if i = [] then Option.none else some (natOfDigits i : ℚ)
  | [i, f] =>
    if i = [] ∧ f = [] then Option.none
    else some ((natOfDigits i : ℚ) + (natOfDigits f : ℚ) / (10 ^ f.length))
  | _ => Option.none

/-! ## The superscript-to-gale-level table (identical in every module) -/

def SUPERSCRIPT_MAP : List (String × Nat) :=
  [("¹", 1), ("²", 2), ("³", 3), ("1", 1), ("2", 2), ("3", 3)]

/-- `sup_to_level`: empty mark is level 0, otherwise the table lookup with
default 0. -/
def sup_to_level (s : String) : Nat :=
  if s = "" then 0
  else ((SUPERSCRIPT_MAP.find? (fun p => p.1 = s)).map (·.2)).getD 0

/-! ## The date normalizer (`app.try_parse_iso_date`)

Dates are represented by their epoch day index (an `Int`); the local
timezone of `datetime.fromtimestamp` is modelled as UTC, which affects
which calendar day an epoch maps to but not parseability. -/

namespace App

/-- Last representable `datetime` timestamp (23:59:59 UTC of year 9999);
beyond it `fromtimestamp` raises. -/
def TS_MAX : ℚ := 253402300799

/-- First representable `datetime` timestamp (year 1). -/
def TS_MIN : ℚ := -62135596800

/-- `datetime.fromtimestamp(t).date()`: the epoch day, or `none` (raise)
out of range. -/
def fromtimestamp_date (t : ℚ) : Option Int :=
  if TS_MIN ≤ t ∧ t ≤ TS_MAX then some (Int.floor (t / 86400)) else Option.none

/-- Day index of a civil calendar date (proleptic Gregorian). -/
def daysFromCivil (y : Int) (m d : Nat) : Int :=
  let y' : Int := if m ≤ 2 then y - 1 else y
  let era : Int := (if 0 ≤ y' then y' else y' - 399) / 400
  let yoe : Int := y' - era * 400
  let mp : Int := ((m : Int) + 9) % 12
  let doy : Int := (153 * mp + 2) / 5 + (d : Int) - 1
  let doe : Int := yoe * 365 + yoe / 4 - yoe / 100 + doy
  era * 146097 + doe - 719468

def isLeapYear (y : Nat) : Bool :=
  (y % 4 = 0 && y % 100 ≠ 0) || y % 400 = 0

def daysInMonth (y m : Nat) : Nat :=
  if m = 2 then (if isLeapYear y then 29 else 28)
  else if m = 4 || m = 6 || m = 9 || m = 11 then 30
  else 31

def validDate (y m d : Nat) : Bool :=
  1 ≤ y && y ≤ 9999 && 1 ≤ m && m ≤ 12 && 1 ≤ d && d ≤ daysInMonth y m

def validTime (h mi s : Nat) : Bool := h ≤ 23 && mi ≤ 59 && s ≤ 59

/-- A run of `lo`..`hi` decimal digits (as `strptime`'s numeric directives
read them), with the rest of the input. -/
def readRun (lo hi : Nat) (l : List Char) : Option (Nat × List Char) :=
  let r := l.takeWhile Char.isDigit
  if lo ≤ r.length ∧ r.length ≤ hi then
    some (natOfDigits r, l.dropWhile Char.isDigit)
  else Option.none

def expectCh (c : Char) : List Char → Option (List Char)
  | x :: xs => if x = c then some xs else Option.none
  | [] => Option.none

/-- `strptime(s, "%Y-%m-%dT%H:%M:%S").date()`. -/
def parseFmtYmdT (l : List Char) : Option Int := do
  let (y, r1) ← readRun 1 4 l
  let r2 ← expectCh '-' r1
  let (mo, r3) ← readRun 1 2 r2
  let r4 ← expectCh '-' r3
  let (d, r5) ← readRun 1 2 r4
  let r6 ← expectCh 'T' r5
  let (h, r7) ← readRun 1 2 r6
  let r8 ← expectCh ':' r7
  let (mi, r9) ← readRun 1 2 r8
  let r10 ← expectCh ':' r9
  let (se, r11) ← readRun 1 2 r10
  if r11 = [] ∧ validDate y mo d ∧ validTime h mi se then
    some (daysFromCivil (y : Int) mo d)
  else Option.none

/-- `strptime(s, "%Y-%m-%d %H:%M:%S").date()`. -/
def parseFmtYmdSp (l : List Char) : Option Int := do
  let (y, r1) ← readRun 1 4 l
  let r2 ← expectCh '-' r1
  let (mo, r3) ← readRun 1 2 r2
  let r4 ← expectCh '-' r3
  let (d, r5) ← readRun 1 2 r4
  let r6 ← expectCh ' ' r5
  let (h, r7) ← readRun 1 2 r6
  let r8 ← expectCh ':' r7
  let (mi, r9) ← readRun 1 2 r8
  let r10 ← expectCh ':' r9
  let (se, r11) ← readRun 1 2 r10
  if r11 = [] ∧ validDate y mo d ∧ validTime h mi se then
    some (daysFromCivil (y : Int) mo d)
  else Option.none

/-- `strptime(s, "%Y-%m-%d").date()`. -/
def parseFmtYmd (l : List Char) : Option Int := do
  let (y, r1) ← readRun 1 4 l
  let r2 ← expectCh '-' r1
  let (mo, r3) ← readRun 1 2 r2
  let r4 ← expectCh '-' r3
  let (d, r5) ← readRun 1 2 r4
  if r5 = [] ∧ validDate y mo d then some (daysFromCivil (y : Int) mo d)
  else Option.none

/-- `strptime(s, "%d/%m/%Y").date()`. -/
def parseFmtDmy (l : List Char) : Option Int := do
  let (d, r1) ← readRun 1 2 l
  let r2 ← expectCh '/' r1
  let (mo, r3) ← readRun 1 2 r2
  let r4 ← expectCh '/' r3
  let (y, r5) ← readRun 1 4 r4
  if r5 = [] ∧ validDate y mo d then some (daysFromCivil (y : Int) mo d)
  else Option.none

/-- The fixed ordered format-pattern stage of the normalizer. -/
def strptimeFormats (l : List Char) : Option Int :=
  parseFmtYmdT l <|> parseFmtYmdSp l <|> parseFmtYmd l <|> parseFmtDmy l

/-- Optional time tail of `datetime.fromisoformat`: empty, or a one-char
separator followed by `HH[:MM[:SS[.fff[fff]]]]`. -/
def isoTimeTail : List Char → Bool
  | [] => true
  | _ :: rest =>
    match readRun 2 2 rest with
    | some (h, r1) =>
      h ≤ 23 &&
      (match r1 with
       | [] => true
       | ':' :: r2 =>
         match readRun 2 2 r2 with
         | some (mi, r3) =>
           mi ≤ 59 &&
           (match r3 with
            | [] => true
            | ':' :: r4 =>
              match readRun 2 2 r4 with
              | some (se, r5) =>
                se ≤ 59 &&
                (match r5 with
                 | [] => true
                 | '.' :: r6 =>
                   let fr := r6.takeWhile Char.isDigit
                   (fr.length = 3 || fr.length = 6) && r6.dropWhile Char.isDigit = []
                 | _ => false)
              | Option.none => false
            | _ => false)
         | Option.none => false
       | _ => false)
    | Option.none => false

/-- `datetime.fromisoformat(s).date()` (extended `YYYY-MM-DD[*HH[:MM[:SS]]]`
format, as accepted before Python 3.11). -/
def fromisoformatDate (l : List Char) : Option Int := do
  let (y, r1) ← readRun 4 4 l
  let r2 ← expectCh '-' r1
  let (mo, r3) ← readRun 2 2 r2
  let r4 ← expectCh '-' r3
  let (d, r5) ← readRun 2 2 r4
  if validDate y mo d ∧ isoTimeTail r5 then some (daysFromCivil (y : Int) mo d)
  else Option.none

/-- The numeric-epoch stage: if the stripped string is nonempty and all
digits, read it as an integer and convert — milliseconds when it exceeds
`10^12`, else seconds. `none` both when the condition fails and when
`fromtimestamp` raises (the source's bare `except: pass`). -/
def epochStage (l : List Char) : Option Int :=
  if l ≠ [] ∧ l.all Char.isDigit then
    let n := natOfDigits l
    if (n : ℚ) > 10 ^ 12 then fromtimestamp_date ((n : ℚ) / 1000)
    else fromtimestamp_date (n : ℚ)
  else Option.none

/-- `try_parse_iso_date` on a string input: epoch stage first, then the
trailing-`Z` strip, the four fixed formats, and finally `fromisoformat`;
`none` is the "unparseable" sentinel, never an exception. -/
def try_parse_iso_date (s : String) : Option Int :=
  if s = "" then Option.none
  else
    let l := (pyStrip s).data
    match epochStage l with
    | some d => some d
    | Option.none =>
      let l2 := if l.getLast? = some 'Z' then l.dropLast else l
      strptimeFormats l2 <|> fromisoformatDate l2

/-- `try_parse_iso_date` on an arbitrary value: falsy values are rejected
up front, everything else is parsed via its `str()` (the `date`/`datetime`
instance branches cannot occur for JSON-bred values). -/
def try_parse_iso_date_py (v : PyVal) : Option Int :=
  if pyTruthy v then try_parse_iso_date (pyStr v) else Option.none

/-! ## `app.parse_signal_block` and `app.extract_records` (single pass) -/

/-- `parse_signal_block`: the three independent searches; the payout is a
fraction, and a `float` failure leaves the field absent. -/
def parse_signal_block (s : String) :
    Option String × Option String × Option ℚ :=
  ((searchAtivo s.data).map pyStrip,
   searchHorario s.data,
   (searchPayout s.data).bind (fun r => (parseFloatQ r.data).map (· / 100)))

def parse_signal_block_E (v : PyVal) :
    Except PyErr (Option String × Option String × Option ℚ) :=
  match v with
  | PyVal.str s => Except.ok (parse_signal_block s)
  | _ => Except.error PyErr.typeError

/-- The payout lookup table keyed by `(pair, time)`; insertion prepends, and
lookup takes the most recent entry, so duplicate keys are last-write-wins. -/
abbrev SigTable := List ((String × String) × ℚ)

def sigLookup (t : SigTable) (k : String × String) : Option ℚ :=
  (t.find? (fun p => p.1 = k)).map (·.2)

structure AppRec where
  pair : String
  time : String
  hour : Nat
  tf : String
  dir : String
  result : String
  gale_level : Nat
  payout : Option ℚ
  msg_date : Option Int
deriving DecidableEq, Repr

def dateKeys : List String :=
  ["date", "message.date", "message.date_unixtime", "message.date_unixtime_str"]

/-- The first date-candidate key that is present with a non-`None` value. -/
def findDateVal (m : Msg) : List String → Option PyVal
  | [] => Option.none
  | k :: ks =>
    match msgFind m k with
    | some PyVal.none => findDateVal m ks
    | some v => some v
    | Option.none => findDateVal m ks

/-- `msg.get("text") or msg.get("message") or ""`. -/
def textOrMessage (m : Msg) : PyVal :=
  pyOr (pyOr (msgGetD m "text" PyVal.none) (msgGetD m "message" PyVal.none))
    (PyVal.str "")

/-- The record's date: the first usable date key, else a parse of the free
text. -/
def app_msg_date (m : Msg) : Option Int :=
  match findDateVal m dateKeys with
  | some v =>
    match try_parse_iso_date_py v with
    | some d => some d
    | Option.none => try_parse_iso_date_py (textOrMessage m)
  | Option.none => try_parse_iso_date_py (textOrMessage m)

/-- `"".join(t.get("text","") if isinstance(t, dict) else str(t) for t in l)`:
joining raises when a fragment dict's text is not a string. -/
def joinFragments : List PyVal → Except PyErr String
  | [] => Except.ok ""
  | t :: r => do
    let piece ← match t with
      | PyVal.dict d =>
        (match msgGetD d "text" (PyVal.str "") with
         | PyVal.str s => Except.ok s
         | _ => Except.error PyErr.typeError)
      | v => Except.ok (pyStr v)
    let restS ← joinFragments r
    Except.ok (piece ++ restS)

/-- One loop iteration of `app.extract_records`: the signal check and the
resolved-line check on the same message, updating the payout table first.
A signal is stored only when pair, time and payout are all present. -/
def app_step (st : List AppRec × SigTable) (m : Msg) :
    Except PyErr (List AppRec × SigTable) := do
  let t0 := msgGetD m "text" (PyVal.str "")
  let text ← match t0 with
    | PyVal.list frags => do
      let s ← joinFragments frags
      pure (PyVal.str s)
    | v => pure v
  let b1 ← pyContains "Ativo:" text
  let b2 ← if b1 then pure true else pyContains "Payout:" text
  let sigs ← if b1 || b2 then do
      let blk ← parse_signal_block_E text
      match blk with
      | (some p, some t, some pay) => pure (((p, t), pay) :: st.2)
      | _ => pure st.2
    else pure st.2
  let one_line := pyCollapse (pyStr text)
  match matchResolved one_line with
  | Option.none => pure (st.1, sigs)
  | some caps =>
    let result_raw := (pyStrip caps.result).toUpper
    let result :=
      if result_raw = "DOJI" then "DOJI"
      else if result_raw = "WIN" then "WIN"
      else if result_raw = "LOSS" then "LOSS"
      else result_raw
    let pair := pyStrip caps.pair
    let time := pyStrip caps.time
    let newRec : AppRec :=
      { pair := pair, time := time,
        hour := natOfDigits (time.data.takeWhile (· ≠ ':')),
        tf := pyStrip caps.tf, dir := pyStrip caps.dir,
        result := result,
        gale_level := sup_to_level caps.sup,
        payout := sigLookup sigs (pair, time),
        msg_date := app_msg_date m }
    pure (st.1 ++ [newRec], sigs)

/-- `app.extract_records`: a single pass over the messages; the payout
table grows as the same loop also emits resolved records. An uncaught
`TypeError` aborts the whole call. -/
def extract_records (msgs : List Msg) :
    Except PyErr (List AppRec × SigTable) :=
  msgs.foldlM app_step ([], [])

/-! ## `app.summarize_resolved`: global and hourly win rates -/

def wins (rs : List AppRec) : Nat := rs.countP (fun r => r.result = "WIN")

def losses (rs : List AppRec) : Nat := rs.countP (fun r => r.result = "LOSS")

/-- `counts.get("DOJI", 0) or counts.get("Doji", 0) or 0`. -/
def dojis (rs : List AppRec) : Nat :=
  let a := rs.countP (fun r => r.result = "DOJI")
  if a ≠ 0 then a
  else
    let b := rs.countP (fun r => r.result = "Doji")
    if b ≠ 0 then b else 0

def resolved_count (rs : List AppRec) : Nat := rs.length - dojis rs

/-- The global win rate of `summarize_resolved`. -/
def win_rate (rs : List AppRec) : ℚ :=
  if 0 < resolved_count rs then
    100 * (wins rs : ℚ) / (resolved_count rs : ℚ)
  else 0

def hour_total (rs : List AppRec) (h : Nat) : Nat :=
  rs.countP (fun r => r.hour = h)

def hour_wins (rs : List AppRec) (h : Nat) : Nat :=
  rs.countP (fun r => decide (r.hour = h ∧ r.result = "WIN"))

/-- The hourly table's `win_rate` column: `100 * wins / total` over the
hour's group (all results counted in the denominator). -/
def hourly_win_rate (rs : List AppRec) (h : Nat) : ℚ :=
  100 * (hour_wins rs h : ℚ) / (hour_total rs h : ℚ)

def hour_losses (rs : List AppRec) (h : Nat) : Nat :=
  rs.countP (fun r => decide (r.hour = h ∧ r.result = "LOSS"))

def hour_dojis (rs : List AppRec) (h : Nat) : Nat :=
  rs.countP (fun r => decide (r.hour = h ∧ r.result = "DOJI"))

/-! ## `app.compute_profit_for_record` -/

/-- Python `l[i]` (negative indexes from the end; `none` is `IndexError`). -/
def pyIndex {α : Type} (l : List α) (i : Int) : Option α :=
  if 0 ≤ i then l.get? i.toNat
  else if i.natAbs ≤ l.length then l.get? (l.length - i.natAbs)
  else Option.none

/-- Python `l[:i]` (negative stops count from the end; never raises). -/
def pySlice {α : Type} (l : List α) (i : Int) : List α :=
  if 0 ≤ i then l.take i.toNat else l.take (l.length - i.natAbs)

/-- The payout `compute_profit_for_record` actually multiplies with:
`rec.get("payout") or default_payout` — the default both when the record's
payout is absent and when it is (falsy) zero. -/
def effective_payout (payoutOpt : Option ℚ) (default_payout : ℚ) : ℚ :=
  match payoutOpt with
  | some p => if p = 0 then default_payout else p
  | Option.none => default_payout

/-- `compute_profit_for_record`: `rec.get("payout") or default_payout`
falls back to the default both when the payout is absent and when it is
zero; the level is clamped with `min(level, len(stakes)-1)`. -/
def compute_profit_for_record (payoutOpt : Option ℚ) (gale : Nat)
    (result0 : String) (stakes : List ℚ) (default_payout : ℚ) : Option ℚ :=
  let payout : ℚ := effective_payout payoutOpt default_payout
  let level : Int := min (gale : Int) ((stakes.length : Int) - 1)
  let result := result0.toUpper
  if result = "DOJI" then some 0
  else if result = "WIN" then
    if level = 0 then (pyIndex stakes 0).map (· * payout)
    else do
      let w ← pyIndex stakes level
      pure (-(pySlice stakes level).sum + w * payout)
  else if result = "LOSS" then some (-(pySlice stakes (level + 1)).sum)
  else some 0

end App

/-! ## The win-rate formula as the spec words it -/

/-- `wins / (wins + losses) × 100`, with 0 for an empty denominator —
the spec's definition of every win-rate figure. -/
def specWinRate (w l : Nat) : ℚ :=
  if w + l = 0 then 0 else 100 * (w : ℚ) / ((w : ℚ) + (l : ℚ))

/-! ## The defensive text accessor shared by the analysis modules -/

def tryTextKey (m : Msg) (k : String) : Option String :=
  match msgFind m k with
  | some (PyVal.str s) => if pyStrip s ≠ "" then some s else Option.none
  | _ => Option.none

/-- `_get_text_from_msg`: the first candidate key holding a nonblank string,
else `msg.get("text") or msg.get("message")` when that is a string, else
the empty string. Total — it never raises. -/
def get_text_from_msg (m : Msg) : String :=
  match tryTextKey m "text" <|> tryTextKey m "message.text" <|>
      tryTextKey m "message" <|> tryTextKey m "message_text" with
  | some s => s
  | Option.none =>
    match pyOr (msgGetD m "text" PyVal.none) (msgGetD m "message" PyVal.none) with
    | PyVal.str s => s
    | _ => ""

/-! ## A trade record as the gale/risk modules hold it -/

structure TRec where
  result : String
  gale_level : Nat
deriving DecidableEq, Repr

def winCount (rs : List TRec) : Nat := rs.countP (fun r => r.result = "WIN")

def lossCount (rs : List TRec) : Nat := rs.countP (fun r => r.result = "LOSS")

def dojiCount (rs : List TRec) : Nat := rs.countP (fun r => r.result = "DOJI")

/-! ## `gestao_risco`: extraction, profit, equity curve, drawdown, streaks -/

namespace GestaoRisco

/-- One message of `gestao_risco._extract_records`: zero records unless the
one-line-collapsed text matches `RESOLVED_RE`, one record when it does. -/
def recOf (m : Msg) : Option TRec :=
  let text := get_text_from_msg m
  if text = "" then Option.none
  else
    (matchResolved (pyCollapse text)).map (fun caps =>
      let raw := (pyStrip caps.result).toUpper
      { result :=
          if raw = "DOJI" then "DOJI" else if raw = "WIN" then "WIN" else "LOSS",
        gale_level := sup_to_level caps.sup })

def extract_records (msgs : List Msg) : List TRec := msgs.filterMap recOf

/-- `calculate_profit`; `none` models the `IndexError` a `WIN` hits on an
empty stake ladder. -/
def calculate_profit (result : String) (gale : Nat) (stakes : List ℚ)
    (payout : ℚ) : Option ℚ :=
  if result = "DOJI" then some 0
  else
    let level : Int := min (gale : Int) ((stakes.length : Int) - 1)
    if result = "WIN" then
      if level = 0 then (App.pyIndex stakes 0).map (· * payout)
      else do
        let w ← App.pyIndex stakes level
        pure (-(App.pySlice stakes level).sum + w * payout)
    else some (-(App.pySlice stakes (level + 1)).sum)

/-- `simulate_equity_curve`: the initial capital followed by one running
balance per record, in order. -/
def simulate_equity_curve : List TRec → ℚ → List ℚ → ℚ → Option (List ℚ)
  | [], c, _, _ => some [c]
  | r :: rs, c, stakes, payout => do
    let p ← calculate_profit r.result r.gale_level stakes payout
    let rest ← simulate_equity_curve rs (c + p) stakes payout
    pure (c :: rest)

structure DDState where
  peak : ℚ
  max_dd : ℚ
  max_dd_pct : ℚ
  min_balance : ℚ
deriving DecidableEq, Repr

/-- One iteration of the drawdown loop in `render_from_json`. -/
def dd_step (st : DDState) (b : ℚ) : DDState :=
  let peak := if b > st.peak then b else st.peak
  let dd := peak - b
  let dd_pct := if peak > 0 then dd / peak * 100 else 0
  { peak := peak,
    max_dd := if dd > st.max_dd then dd else st.max_dd,
    max_dd_pct := if dd > st.max_dd then dd_pct else st.max_dd_pct,
    min_balance := if b < st.min_balance then b else st.min_balance }

/-- The single forward pass over the equity curve, starting from the
initial capital as peak and minimum. -/
def drawdown_scan (curve : List ℚ) (capital : ℚ) : DDState :=
  curve.foldl dd_step ⟨capital, 0, 0, capital⟩

/-- `win_rate = wins / (wins + losses) if (wins + losses) > 0 else 0`
(a fraction here, not a percentage). -/
def win_rate (rs : List TRec) : ℚ :=
  if 0 < winCount rs + lossCount rs then
    (winCount rs : ℚ) / ((winCount rs : ℚ) + (lossCount rs : ℚ))
  else 0

def loss_rate (rs : List TRec) : ℚ := 1 - win_rate rs

/-- `loss_rate ** n * 100`, the loss-streak probability figures. -/
def prob_loss_streak (rs : List TRec) (n : Nat) : ℚ := loss_rate rs ^ n * 100

/-- The `df.empty` gate that renders the "no data" state instead. -/
def no_data (rs : List TRec) : Bool := rs.isEmpty

end GestaoRisco

/-! ## `validacao_horarios`: genuinely two-pass extraction -/

namespace ValidacaoHorarios

structure VRec where
  pair : String
  time : String
  hour : Nat
  tf : String
  dir : String
  result : String
  gale_level : Nat
  payout : Option ℚ
deriving DecidableEq, Repr

/-- The pass-1 contribution of one message: `some` exactly when the text
contains a trigger substring and both the pair and the time sub-patterns
match; the payout is optional (`none` also when `float` fails). -/
def sigOf (m : Msg) : Option ((String × String) × Option ℚ) :=
  let text := get_text_from_msg m
  if containsSub "Ativo:" text || containsSub "Payout:" text then
    match searchAtivo text.data, searchHorario text.data with
    | some p, some t =>
      some ((pyStrip p, pyStrip t),
        (searchPayout text.data).bind (fun r => (parseFloatQ r.data).map (· / 100)))
    | _, _ => Option.none
  else Option.none

/-- One pass-1 loop iteration: store the message's signal, if any. -/
def pass1_step (tb : List ((String × String) × Option ℚ)) (m : Msg) :
    List ((String × String) × Option ℚ) :=
  match sigOf m with
  | some kp => kp :: tb
  | Option.none => tb

/-- Pass 1: fold the whole collection into the payout table. Insertion
prepends and lookup takes the most recent entry: last-write-wins. -/
def pass1 (msgs : List Msg) : List ((String × String) × Option ℚ) :=
  msgs.foldl pass1_step []

def lookupSig (tb : List ((String × String) × Option ℚ))
    (k : String × String) : Option (Option ℚ) :=
  (tb.find? (fun p => p.1 = k)).map (·.2)

/-- Pass 2 on one message: build the record from the resolved-line match,
with the payout looked up in the pass-1 table (null when absent). -/
def recOf (tb : List ((String × String) × Option ℚ)) (m : Msg) : Option VRec :=
  let text := get_text_from_msg m
  if text = "" then Option.none
  else
    (matchResolved (pyCollapse text)).map (fun caps =>
      let pair := pyStrip caps.pair
      let time := pyStrip caps.time
      let raw := (pyStrip caps.result).toUpper
      { pair := pair, time := time,
        hour := natOfDigits (time.data.takeWhile (· ≠ ':')),
        tf := pyStrip caps.tf, dir := pyStrip caps.dir,
        result :=
          if raw = "DOJI" then "DOJI" else if raw = "WIN" then "WIN" else "LOSS",
        gale_level := sup_to_level caps.sup,
        payout := (lookupSig tb (pair, time)).join })

/-- `validacao_horarios._extract_records`: pass 1 over all messages, then
pass 2 over all messages against the completed table. -/
def extract_records (msgs : List Msg) : List VRec :=
  msgs.filterMap (recOf (pass1 msgs))

def hwins (rs : List VRec) (h : Nat) : Nat :=
  rs.countP (fun r => decide (r.hour = h ∧ r.result = "WIN"))

def hlosses (rs : List VRec) (h : Nat) : Nat :=
  rs.countP (fun r => decide (r.hour = h ∧ r.result = "LOSS"))

/-- The hourly `Win_Rate_Pct` column: `WIN / (WIN + LOSS) * 100`, with the
`NaN` of an empty denominator filled with 0. -/
def hourly_win_rate (rs : List VRec) (h : Nat) : ℚ :=
  if hwins rs h + hlosses rs h = 0 then 0
  else ((hwins rs h : ℚ) / ((hwins rs h : ℚ) + (hlosses rs h : ℚ))) * 100

end ValidacaoHorarios

/-! ## `performance_paridades`: volatility and classification -/

namespace PerformanceParidades

/-- `_calculate_volatility`: the loss rate as a percentage. -/
def calculate_volatility (wins losses : Nat) : ℚ :=
  if wins + losses = 0 then 0
  else ((losses : ℚ) / ((wins : ℚ) + (losses : ℚ))) * 100

/-- `_classify_pair`: under 5 operations is "no data", otherwise the five
ordered tiers on (win rate, volatility). -/
def classify_pair (win_rate_pct volatility_pct : ℚ) (total_ops : Nat) : String :=
  if total_ops < 5 then "SEM_DADOS"
  else if 90 ≤ win_rate_pct ∧ volatility_pct ≤ 15 then "EXCELENTE"
  else if 85 ≤ win_rate_pct ∧ volatility_pct ≤ 18 then "BOM"
  else if 80 ≤ win_rate_pct ∧ volatility_pct ≤ 25 then "OK"
  else if 75 ≤ win_rate_pct then "REGULAR"
  else "PERIGOSO"

/-- The `Win_Rate_Pct` column of the per-pair table:
`WIN / (WIN + LOSS) * 100` with `NaN` filled by 0 (the 2-decimal display
rounding of the float pipeline is not modelled). -/
def win_rate_pct (rs : List TRec) : ℚ :=
  if winCount rs + lossCount rs = 0 then 0
  else ((winCount rs : ℚ) / ((winCount rs : ℚ) + (lossCount rs : ℚ))) * 100

/-- End-to-end classification of one instrument's record group. -/
def classify_records (rs : List TRec) : String :=
  classify_pair (win_rate_pct rs)
    (calculate_volatility (winCount rs) (lossCount rs)) rs.length

end PerformanceParidades

/-! ## `qualidade_sala`: per-gale-level win rates -/

namespace QualidadeSala

/-- `_safe_div`. -/
def safe_div (a b : ℚ) : ℚ := if b ≠ 0 then a / b else 0

def total_g (rs : List TRec) (g : Nat) : Nat :=
  rs.countP (fun r => r.gale_level = g)

def wins_g (rs : List TRec) (g : Nat) : Nat :=
  rs.countP (fun r => decide (r.gale_level = g ∧ r.result = "WIN"))

def losses_g (rs : List TRec) (g : Nat) : Nat :=
  rs.countP (fun r => decide (r.gale_level = g ∧ r.result = "LOSS"))

def dojis_g (rs : List TRec) (g : Nat) : Nat :=
  rs.countP (fun r => decide (r.gale_level = g ∧ r.result = "DOJI"))

/-- `win_rate_gN_pct`: wins at the level over ALL records at the level
(dojis included in the denominator). -/
def win_rate_g (rs : List TRec) (g : Nat) : ℚ :=
  if 0 < total_g rs g then safe_div (wins_g rs g) (total_g rs g) * 100 else 0

/-- `win_rate_bruto_pct`: the global rate over wins and losses only. -/
def win_rate_bruto (rs : List TRec) : ℚ :=
  if 0 < winCount rs + lossCount rs then
    safe_div (winCount rs) (winCount rs + lossCount rs) * 100
  else 0

end QualidadeSala

/-! ## `analise_gales`: pooled "through gale N" win rates -/

namespace AnaliseGales

def winsThrough (rs : List TRec) (n : Nat) : Nat :=
  rs.countP (fun r => decide (r.gale_level ≤ n ∧ r.result = "WIN"))

def lossesThrough (rs : List TRec) (n : Nat) : Nat :=
  rs.countP (fun r => decide (r.gale_level ≤ n ∧ r.result = "LOSS"))

/-- The combined "through gale N" win rate: wins and losses pooled over
levels `0..N` (`wr_g0`, `wr_com_g1`, `wr_com_g1_g2` are the instances the
source computes for N = 0, 1 and the full set). -/
def wr_through (rs : List TRec) (n : Nat) : ℚ :=
  if winsThrough rs n + lossesThrough rs n = 0 then 0
  else
    ((winsThrough rs n : ℚ) /
      ((winsThrough rs n : ℚ) + (lossesThrough rs n : ℚ))) * 100

def winsAt (rs : List TRec) (n : Nat) : Nat :=
  rs.countP (fun r => decide (r.gale_level = n ∧ r.result = "WIN"))

def lossesAt (rs : List TRec) (n : Nat) : Nat :=
  rs.countP (fun r => decide (r.gale_level = n ∧ r.result = "LOSS"))

/-- The per-level win rate (`wr_g1`, `wr_g2` in the source). -/
def wr_at (rs : List TRec) (n : Nat) : ℚ :=
  if winsAt rs n + lossesAt rs n = 0 then 0
  else ((winsAt rs n : ℚ) / ((winsAt rs n : ℚ) + (lossesAt rs n : ℚ))) * 100

end AnaliseGales

/-! ## The shared rate shape and concrete example inputs -/

/-- The `w / (w + l) * 100, else 0` expression every module's win-rate
column reduces to. -/
def ratePct (w l : Nat) : ℚ :=
  if w + l = 0 then 0 else ((w : ℚ) / ((w : ℚ) + (l : ℚ))) * 100

/-- An open-signal message with instrument, time and payout. -/
def exSigMsg : Msg :=
  [("text", PyVal.str "Ativo: EURUSD-OTC Horário: 14:05:00 Payout: 87%")]

/-- An open-signal message with instrument and time but no payout. -/
def exSigNoPayMsg : Msg :=
  [("text", PyVal.str "Ativo: EURUSD-OTC Horário: 14:05:00")]

/-- A resolved-line message for the same instrument and time. -/
def exResolvedMsg : Msg :=
  [("text", PyVal.str "✅ EURUSD-OTC - 14:05:00 - M1 - call - WIN")]

/-- A message whose `text` field is present but `null`. -/
def exNoneTextMsg : Msg := [("text", PyVal.none)]

/-- A WIN record in the 14:00 hour. -/
def exWinRec14 : App.AppRec :=
  { pair := "EURUSD-OTC", time := "14:05:00", hour := 14, tf := "M1",
    dir := "call", result := "WIN", gale_level := 0,
    payout := Option.none, msg_date := Option.none }

/-- A DOJI record in the same hour. -/
def exDojiRec14 : App.AppRec :=
  { pair := "EURUSD-OTC", time := "14:06:00", hour := 14, tf := "M1",
    dir := "call", result := "DOJI", gale_level := 0,
    payout := Option.none, msg_date := Option.none }

/-! ## General-purpose lemmas -/

theorem length_filterMap_countP {α β : Type} (f : α → Option β) :
    ∀ l : List α, (l.filterMap f).length = l.countP (fun a => (f a).isSome)
  | [] => rfl
  | a :: t => by
    cases h : f a <;>
      simp [List.filterMap_cons, h, List.countP_cons,
        length_filterMap_countP f t]

theorem countP_le_of_imp {α : Type} {p q : α → Bool} :
    ∀ l : List α, (∀ a ∈ l, p a = true → q a = true) →
      l.countP p ≤ l.countP q
  | [], _ => le_refl _
  | a :: t, h => by
    have ht := countP_le_of_imp t (fun b hb => h b (List.mem_cons_of_mem a hb))
    by_cases hp : p a = true
    · have hq := h a (List.mem_cons_self a t) hp
      simp [List.countP_cons, hp, hq]; omega
    · simp only [List.countP_cons]
      have hp' : p a = false := by simpa using hp
      by_cases hq : q a = true <;> simp [hp', hq] <;> omega

theorem ratePct_nonneg (w l : Nat) : 0 ≤ ratePct w l := by
  unfold ratePct
  split
  · exact le_refl 0
  · positivity

theorem ratePct_le_100 (w l : Nat) : ratePct w l ≤ 100 := by
  unfold ratePct
  split
  · norm_num
  · rename_i h
    have hd : (0 : ℚ) < (w : ℚ) + (l : ℚ) := by
      have : 0 < w + l := Nat.pos_of_ne_zero h
      exact_mod_cast this
    rw [div_mul_eq_mul_div, div_le_iff hd]
    have hw : (w : ℚ) ≤ (w : ℚ) + (l : ℚ) := by
      have : (0 : ℚ) ≤ (l : ℚ) := by positivity
      linarith
    linarith

theorem ratePct_eq_spec (w l : Nat) : ratePct w l = specWinRate w l := by
  unfold ratePct specWinRate
  split
  · rfl
  · ring

theorem specWinRate_nonneg (w l : Nat) : 0 ≤ specWinRate w l := by
  rw [← ratePct_eq_spec]; exact ratePct_nonneg w l

theorem specWinRate_le_100 (w l : Nat) : specWinRate w l ≤ 100 := by
  rw [← ratePct_eq_spec]; exact ratePct_le_100 w l

/-- Adding a pool whose own rate is at least the current rate (or an empty
pool) cannot lower the pooled rate: the mediant inequality behind the
"through gale N" monotonicity. -/
theorem ratePct_mediant (w l w' l' : Nat)
    (h : w' + l' = 0 ∨ ratePct w l ≤ ratePct w' l') :
    ratePct w l ≤ ratePct (w + w') (l + l') := by
  rcases h with h0 | hle
  · have hw : w' = 0 := by omega
    have hl : l' = 0 := by omega
    subst hw; subst hl
    simp
  · by_cases hwl : w + l = 0
    · calc ratePct w l = 0 := by unfold ratePct; rw [if_pos hwl]
        _ ≤ ratePct (w + w') (l + l') := ratePct_nonneg _ _
    · by_cases hwl' : w' + l' = 0
      · have hw : w' = 0 := by omega
        have hl : l' = 0 := by omega
        subst hw; subst hl; simp
      · have hd1 : (0 : ℚ) < (w : ℚ) + (l : ℚ) := by
          have : 0 < w + l := Nat.pos_of_ne_zero hwl
          exact_mod_cast this
        have hd2 : (0 : ℚ) < (w' : ℚ) + (l' : ℚ) := by
          have : 0 < w' + l' := Nat.pos_of_ne_zero hwl'
          exact_mod_cast this
        have hsum : w + w' + (l + l') ≠ 0 := by omega
        have hd3 : (0 : ℚ) < ((w + w' : Nat) : ℚ) + ((l + l' : Nat) : ℚ) := by
          have : 0 < (w + w') + (l + l') := Nat.pos_of_ne_zero hsum
          push_cast
          exact_mod_cast this
        unfold ratePct at hle ⊢
        rw [if_neg hwl, if_neg hwl'] at hle
        rw [if_neg hwl, if_neg hsum]
        rw [div_mul_eq_mul_div, div_mul_eq_mul_div, div_le_div_iff hd1 hd2] at hle
        rw [div_mul_eq_mul_div, div_mul_eq_mul_div]
        push_cast at hd3 ⊢
        rw [div_le_div_iff hd1 hd3]
        nlinarith [hle]

/-- Counting a conjunction with `gale_level ≤ n + 1` splits into the
`≤ n` pool and the `= n + 1` level. -/
theorem countP_through_succ (rs : List TRec) (n : Nat) (res : String) :
    rs.countP (fun r => decide (r.gale_level ≤ n + 1 ∧ r.result = res)) =
      rs.countP (fun r => decide (r.gale_level ≤ n ∧ r.result = res)) +
      rs.countP (fun r => decide (r.gale_level = n + 1 ∧ r.result = res)) := by
  induction rs with
  | nil => rfl
  | cons r t ih =>
    simp only [List.countP_cons, ih]
    by_cases hres : r.result = res
    · by_cases h1 : r.gale_level ≤ n
      · have h2 : r.gale_level ≤ n + 1 := by omega
        have h3 : ¬(r.gale_level = n + 1) := by omega
        simp [h1, h2, h3, hres]; omega
      · by_cases h2 : r.gale_level = n + 1
        · have h3 : r.gale_level ≤ n + 1 := by omega
          simp [h1, h2, h3, hres]; omega
        · have h3 : ¬(r.gale_level ≤ n + 1) := by omega
          simp [h1, h2, h3]
    · simp [hres]

/-- Counting a group splits by result when every result is one of the
three enum values. -/
theorem countP_result_tri {γ : Type} (res : γ → String) (q : γ → Bool) :
    ∀ rs : List γ,
      (∀ r ∈ rs, res r = "WIN" ∨ res r = "LOSS" ∨ res r = "DOJI") →
      rs.countP q =
        rs.countP (fun r => q r && decide (res r = "WIN")) +
        rs.countP (fun r => q r && decide (res r = "LOSS")) +
        rs.countP (fun r => q r && decide (res r = "DOJI"))
  | [], _ => rfl
  | r :: t, h => by
    have ht := countP_result_tri res q t
      (fun b hb => h b (List.mem_cons_of_mem r hb))
    have hr := h r (List.mem_cons_self r t)
    simp only [List.countP_cons, ht]
    by_cases hq : q r = true
    · rcases hr with hw | hl | hd
      · have h1 : ¬(res r = "LOSS") := by rw [hw]; decide
        have h2 : ¬(res r = "DOJI") := by rw [hw]; decide
        simp [hq, hw, h1, h2]; omega
      · have h1 : ¬(res r = "WIN") := by rw [hl]; decide
        have h2 : ¬(res r = "DOJI") := by rw [hl]; decide
        simp [hq, hl, h1, h2]; omega
      · have h1 : ¬(res r = "WIN") := by rw [hd]; decide
        have h2 : ¬(res r = "LOSS") := by rw [hd]; decide
        simp [hq, hd, h1, h2]; omega
    · have hq' : q r = false := by simpa using hq
      simp [hq']

/-! ## Claim theorems -/

/-- C2: the spec demands that record extraction never raises on malformed
input, but `app.extract_records` evaluates `"Ativo:" in text` on the raw
text value, which raises `TypeError` when a message's `text` field is
`null` (or any other non-string, non-list value); the defensively written
module extractors skip the same message instead. -/
theorem C2_extract_raises_on_null_text :
    App.extract_records [exNoneTextMsg] = Except.error PyErr.typeError ∧
    GestaoRisco.extract_records [exNoneTextMsg] = [] := ⟨rfl, rfl⟩

/-- C10: on a nonempty all-DOJI record sequence the risk page does not take
its `df.empty` "no data" branch; wins and losses are both zero, so the win
rate is 0, the loss rate is 1, and every loss-streak probability
`loss_rate ^ n * 100` equals 100%. -/
theorem C10_all_doji_streaks (rs : List TRec) (hne : rs ≠ [])
    (hall : ∀ r ∈ rs, r.result = "DOJI") :
    GestaoRisco.no_data rs = false ∧
    GestaoRisco.win_rate rs = 0 ∧
    GestaoRisco.loss_rate rs = 1 ∧
    ∀ n : Nat, GestaoRisco.prob_loss_streak rs n = 100 := by
  have hw : winCount rs = 0 := by
    rw [winCount, List.countP_eq_zero]
    intro a ha
    have := hall a ha
    simp [this]
  have hl : lossCount rs = 0 := by
    rw [lossCount, List.countP_eq_zero]
    intro a ha
    have := hall a ha
    simp [this]
  have hwr : GestaoRisco.win_rate rs = 0 := by
    rw [GestaoRisco.win_rate, hw, hl]
    norm_num
  have hlr : GestaoRisco.loss_rate rs = 1 := by
    rw [GestaoRisco.loss_rate, hwr]
    norm_num
  refine ⟨?_, hwr, hlr, ?_⟩
  · cases rs with
    | nil => exact absurd rfl hne
    | cons a t => rfl
  · intro n
    rw [GestaoRisco.prob_loss_streak, hlr]
    norm_num

/-- Witness for C10 at the one-record all-DOJI sequence. -/
theorem C10_all_doji_streaks_witness :
    GestaoRisco.win_rate [(⟨"DOJI", 0⟩ : TRec)] = 0 ∧
    GestaoRisco.prob_loss_streak [(⟨"DOJI", 0⟩ : TRec)] 2 = 100 := by
  have h := C10_all_doji_streaks [⟨"DOJI", 0⟩] (by decide) (by decide)
  exact ⟨h.2.1, h.2.2.2 2⟩

/-- C7: an instrument with fewer than 5 operations is classified
"SEM_DADOS"; with at least 5 the five ordered tiers apply to the group's
win rate and volatility, volatility being the loss percentage
`losses / (wins + losses) × 100` (0 on an empty denominator); and ten
level-0 WINs with no losses land in the top tier with win rate 100 and
volatility 0. -/
theorem C7_pair_classification :
    (∀ rs : List TRec, rs.length < 5 →
        PerformanceParidades.classify_records rs = "SEM_DADOS")
  ∧ (∀ w l : Nat, PerformanceParidades.calculate_volatility w l =
        if w + l = 0 then 0 else 100 * (l : ℚ) / ((w : ℚ) + (l : ℚ)))
  ∧ (∀ rs : List TRec, 5 ≤ rs.length →
        PerformanceParidades.classify_records rs =
          (if 90 ≤ specWinRate (winCount rs) (lossCount rs) ∧
              PerformanceParidades.calculate_volatility (winCount rs)
                (lossCount rs) ≤ 15 then "EXCELENTE"
           else if 85 ≤ specWinRate (winCount rs) (lossCount rs) ∧
              PerformanceParidades.calculate_volatility (winCount rs)
                (lossCount rs) ≤ 18 then "BOM"
           else if 80 ≤ specWinRate (winCount rs) (lossCount rs) ∧
              PerformanceParidades.calculate_volatility (winCount rs)
                (lossCount rs) ≤ 25 then "OK"
           else if 75 ≤ specWinRate (winCount rs) (lossCount rs) then
             "REGULAR"
           else "PERIGOSO"))
  ∧ PerformanceParidades.classify_records
      (List.replicate 10 (⟨"WIN", 0⟩ : TRec)) = "EXCELENTE"
  ∧ specWinRate (winCount (List.replicate 10 (⟨"WIN", 0⟩ : TRec)))
      (lossCount (List.replicate 10 (⟨"WIN", 0⟩ : TRec))) = 100
  ∧ PerformanceParidades.calculate_volatility
      (winCount (List.replicate 10 (⟨"WIN", 0⟩ : TRec)))
      (lossCount (List.replicate 10 (⟨"WIN", 0⟩ : TRec))) = 0 := by
  have hspec : ∀ rs : List TRec,
      PerformanceParidades.win_rate_pct rs =
        specWinRate (winCount rs) (lossCount rs) := by
    intro rs
    rw [← ratePct_eq_spec]
    rfl
  refine ⟨?_, ?_, ?_, by with_unfolding_all rfl, by with_unfolding_all rfl,
    by with_unfolding_all rfl⟩
  · intro rs h
    rw [PerformanceParidades.classify_records,
      PerformanceParidades.classify_pair, if_pos h]
  · intro w l
    rw [PerformanceParidades.calculate_volatility]
    split
    · rfl
    · ring
  · intro rs h
    rw [PerformanceParidades.classify_records,
      PerformanceParidades.classify_pair, if_neg (not_lt.mpr h), hspec]

/-- Witness for C7: the no-data tier at an empty group and the worst tier
at five straight losses. -/
theorem C7_pair_classification_witness :
    PerformanceParidades.classify_records ([] : List TRec) = "SEM_DADOS" ∧
    PerformanceParidades.classify_records
      (List.replicate 5 (⟨"LOSS", 0⟩ : TRec)) = "PERIGOSO" := by
  constructor
  · exact C7_pair_classification.1 [] (by decide)
  · rw [C7_pair_classification.2.2.1 (List.replicate 5 ⟨"LOSS", 0⟩) (by decide)]
    with_unfolding_all rfl

/-- Counterexample to C6 as stated: with one level-0 WIN and one level-1
LOSS, the level-1 win rate is 0% (which is ≥ 0%), yet the combined rate
drops from 100% through gale 0 to 50% through gale 1. -/
theorem C6_counterexample :
    (0 : ℚ) ≤ AnaliseGales.wr_at [(⟨"WIN", 0⟩ : TRec), ⟨"LOSS", 1⟩] 1 ∧
    AnaliseGales.wr_through [(⟨"WIN", 0⟩ : TRec), ⟨"LOSS", 1⟩] 1 <
      AnaliseGales.wr_through [(⟨"WIN", 0⟩ : TRec), ⟨"LOSS", 1⟩] 0 := by
  with_unfolding_all decide

/-- C6 (amended): the combined "through gale N" win rate is non-decreasing
from N to N+1 whenever level N+1 contributes no wins or losses at all, or
its own win rate is at least the combined rate through level N — the
mediant inequality; a level rate that is merely ≥ 0% is not enough. -/
theorem C6_through_gale_monotone (rs : List TRec) (n : Nat)
    (h : AnaliseGales.winsAt rs (n + 1) + AnaliseGales.lossesAt rs (n + 1) = 0 ∨
        AnaliseGales.wr_through rs n ≤ AnaliseGales.wr_at rs (n + 1)) :
    AnaliseGales.wr_through rs n ≤ AnaliseGales.wr_through rs (n + 1) := by
  have hws := countP_through_succ rs n "WIN"
  have hls := countP_through_succ rs n "LOSS"
  have e1 : AnaliseGales.wr_through rs (n + 1) =
      ratePct (AnaliseGales.winsThrough rs (n + 1))
        (AnaliseGales.lossesThrough rs (n + 1)) := rfl
  have e0 : AnaliseGales.wr_through rs n =
      ratePct (AnaliseGales.winsThrough rs n)
        (AnaliseGales.lossesThrough rs n) := rfl
  have e2 : AnaliseGales.wr_at rs (n + 1) =
      ratePct (AnaliseGales.winsAt rs (n + 1))
        (AnaliseGales.lossesAt rs (n + 1)) := rfl
  rw [e0, e1]
  have hws' : AnaliseGales.winsThrough rs (n + 1) =
      AnaliseGales.winsThrough rs n + AnaliseGales.winsAt rs (n + 1) := hws
  have hls' : AnaliseGales.lossesThrough rs (n + 1) =
      AnaliseGales.lossesThrough rs n + AnaliseGales.lossesAt rs (n + 1) := hls
  rw [hws', hls']
  refine ratePct_mediant _ _ _ _ ?_
  rcases h with h | h
  · exact Or.inl h
  · right
    rw [e0, e2] at h
    exact h

/-- Witness for C6 (amended) with two WINs across levels 0 and 1. -/
theorem C6_through_gale_monotone_witness :
    AnaliseGales.wr_through [(⟨"WIN", 0⟩ : TRec), ⟨"WIN", 1⟩] 0 ≤
      AnaliseGales.wr_through [(⟨"WIN", 0⟩ : TRec), ⟨"WIN", 1⟩] 1 :=
  C6_through_gale_monotone [⟨"WIN", 0⟩, ⟨"WIN", 1⟩] 0
    (Or.inr (by with_unfolding_all decide))

/-- Counterexample to C3 as stated: in an hour group holding one WIN and
one DOJI, the hourly table's rate is 50% (DOJI counted in the
denominator), while `wins / (wins + losses) × 100` is 100%. -/
theorem C3_counterexample :
    App.hourly_win_rate [exWinRec14, exDojiRec14] 14 = 50 ∧
    specWinRate (App.hour_wins [exWinRec14, exDojiRec14] 14)
      (App.hour_losses [exWinRec14, exDojiRec14] 14) = 100 ∧
    (50 : ℚ) ≠ 100 := by
  with_unfolding_all decide

/-- Counterexample to C4 as stated: a record whose payout is known to be 0
is priced with the caller default (`rec.get("payout") or default_payout`),
so a level-0 WIN with stake 2 yields 2 × 0.85 = 1.7, not 2 × 0 = 0. -/
theorem C4_counterexample :
    App.compute_profit_for_record (some 0) 0 "WIN" [2] (17 / 20) =
      some (17 / 10) ∧
    (17 / 10 : ℚ) ≠ 2 * 0 := by
  with_unfolding_all decide

/-- Counterexample to C8 as stated: `"999999999999"` is all digits and
falls in the seconds branch (≤ 10¹²), but its epoch is beyond year 9999,
so `fromtimestamp` raises, the code falls through to the format patterns,
and no calendar date is produced at all. -/
theorem C8_counterexample :
    "999999999999".data.all Char.isDigit = true ∧
    (natOfDigits "999999999999".data : ℚ) ≤ 10 ^ 12 ∧
    App.try_parse_iso_date "999999999999" = Option.none := by
  with_unfolding_all decide

/-- Counterexample to C1 as stated: `app.extract_records` is single-pass
and stores a signal only when the payout is present, so the correlated
payout depends on message order — a resolved line placed before its open
signal gets a null payout, after it the 0.87; and a later payout-less
duplicate signal does not overwrite (the two-pass extractor of
`validacao_horarios` overwrites it with null on the same input). -/
theorem C1_counterexample :
    (App.extract_records [exResolvedMsg, exSigMsg]).map
        (fun p => p.1.map (·.payout)) = Except.ok [Option.none] ∧
    (App.extract_records [exSigMsg, exResolvedMsg]).map
        (fun p => p.1.map (·.payout)) = Except.ok [some (87 / 100)] ∧
    (App.extract_records [exSigMsg, exSigNoPayMsg, exResolvedMsg]).map
        (fun p => p.1.map (·.payout)) = Except.ok [some (87 / 100)] ∧
    (ValidacaoHorarios.extract_records [exSigMsg, exSigNoPayMsg, exResolvedMsg]).map
        (·.payout) = [Option.none] := by
  refine ⟨rfl, ?_, ?_, rfl⟩ <;> rfl

/-! ## Lemmas about Python indexing and the profit functions -/

theorem pyIndex_natCast {α : Type} (l : List α) (k : Nat) :
    App.pyIndex l (k : Int) = l.get? k := by
  simp [App.pyIndex]

theorem pySlice_natCast {α : Type} (l : List α) (k : Nat) :
    App.pySlice l (k : Int) = l.take k := by
  simp [App.pySlice]

theorem level_cast (gale n : Nat) (h : 1 ≤ n) :
    min (gale : Int) ((n : Int) - 1) = ((min gale (n - 1) : Nat) : Int) := by
  rw [Nat.cast_min]
  congr 1
  omega

theorem get?_eq_getD {α : Type} (l : List α) (k : Nat) (d : α)
    (h : k < l.length) : l.get? k = some (l.getD k d) := by
  rw [List.get?_eq_getElem?, List.getElem?_eq_getElem h,
    List.getD_eq_getElem?_getD, List.getElem?_eq_getElem h]
  rfl

/-- C4 (amended): with a nonempty stake ladder and the gale level clamped
to `min(level, len-1)`, the per-record profit is 0 on DOJI,
`-(sum of stakes below the level) + stakes[level] × payout` on WIN
(hence `stakes[0] × payout` at level 0), and
`-(sum of stakes through the level)` on LOSS — where the payout actually
used is `effective_payout`: the record's own payout only when it is known
AND nonzero, the caller default otherwise (Python `or` falsiness).
Consequently 500 − (2 + 4.3 + 9.24) = 484.46 after a single LOSS at gale
level 2 under the default ladder and payout. -/
theorem C4_profit_formula :
    (∀ (payoutOpt : Option ℚ) (gale : Nat) (stakes : List ℚ) (dp : ℚ),
        stakes ≠ [] →
        App.compute_profit_for_record payoutOpt gale "DOJI" stakes dp = some 0 ∧
        App.compute_profit_for_record payoutOpt gale "WIN" stakes dp =
          some (-(stakes.take (min gale (stakes.length - 1))).sum +
            stakes.getD (min gale (stakes.length - 1)) 0 *
              App.effective_payout payoutOpt dp) ∧
        App.compute_profit_for_record payoutOpt gale "LOSS" stakes dp =
          some (-(stakes.take (min gale (stakes.length - 1) + 1)).sum))
  ∧ GestaoRisco.simulate_equity_curve [⟨"LOSS", 2⟩] 500 [2, 43/10, 231/25]
      (17/20) = some [500, 484.46]
  ∧ (484.46 : ℚ) = 500 - (2 + 43/10 + 231/25) := by
  refine ⟨?_, by with_unfolding_all rfl, by norm_num⟩
  intro payoutOpt gale stakes dp hne
  have hlen : 1 ≤ stakes.length := List.length_pos.mpr hne
  have hcast := level_cast gale stakes.length hlen
  have hkl : min gale (stakes.length - 1) < stakes.length := by omega
  refine ⟨by with_unfolding_all rfl, ?_, ?_⟩
  · simp only [App.compute_profit_for_record]
    have hW1 : ¬("WIN".toUpper = "DOJI") := by with_unfolding_all decide
    have hW2 : "WIN".toUpper = "WIN" := by with_unfolding_all rfl
    rw [if_neg hW1, if_pos hW2, hcast]
    by_cases hk0 : min gale (stakes.length - 1) = 0
    · rw [hk0, if_pos (by norm_num)]
      have h0 : App.pyIndex stakes (0 : Int) = stakes.get? 0 :=
        pyIndex_natCast stakes 0
      rw [h0, get?_eq_getD stakes 0 0 (by omega)]
      simp
    · rw [if_neg (by exact_mod_cast hk0)]
      rw [pyIndex_natCast, get?_eq_getD stakes _ 0 hkl, pySlice_natCast]
      rfl
  · simp only [App.compute_profit_for_record]
    have hL1 : ¬("LOSS".toUpper = "DOJI") := by with_unfolding_all decide
    have hL2 : ¬("LOSS".toUpper = "WIN") := by with_unfolding_all decide
    have hL3 : "LOSS".toUpper = "LOSS" := by with_unfolding_all rfl
    rw [if_neg hL1, if_neg hL2, if_pos hL3, hcast]
    have hp : ((min gale (stakes.length - 1) : Nat) : Int) + 1 =
        ((min gale (stakes.length - 1) + 1 : Nat) : Int) := by push_cast; ring
    rw [hp, pySlice_natCast]

/-- Witness for C4 (amended): the LOSS leg of the concrete 484.46 example. -/
theorem C4_profit_formula_witness :
    App.compute_profit_for_record Option.none 2 "LOSS" [2, 43/10, 231/25]
      (17/20) = some (-(2 + 43/10 + 231/25) : ℚ) := by
  have h := (C4_profit_formula.1 Option.none 2 [2, 43/10, 231/25] (17/20)
    (by decide)).2.2
  rw [h]
  norm_num [List.take]

/-! ## Lemmas for the equity-curve invariants -/

theorem calculate_profit_total (result : String) (g : Nat) (stakes : List ℚ)
    (payout : ℚ) (hne : stakes ≠ []) :
    ∃ q, GestaoRisco.calculate_profit result g stakes payout = some q := by
  have hlen : 1 ≤ stakes.length := List.length_pos.mpr hne
  have hcast := level_cast g stakes.length hlen
  have hkl : min g (stakes.length - 1) < stakes.length := by omega
  by_cases hd : result = "DOJI"
  · exact ⟨0, by simp [GestaoRisco.calculate_profit, hd]⟩
  · by_cases hw : result = "WIN"
    · by_cases hk0 : min g (stakes.length - 1) = 0
      · refine ⟨stakes.getD 0 0 * payout, ?_⟩
        simp only [GestaoRisco.calculate_profit]
        rw [if_neg hd, if_pos hw, hcast, hk0, if_pos (by norm_num)]
        have h0 : App.pyIndex stakes (0 : Int) = stakes.get? 0 :=
          pyIndex_natCast stakes 0
        rw [h0, get?_eq_getD stakes 0 0 (by omega)]
        rfl
      · refine ⟨-(App.pySlice stakes
            ((min g (stakes.length - 1) : Nat) : Int)).sum +
            stakes.getD (min g (stakes.length - 1)) 0 * payout, ?_⟩
        simp only [GestaoRisco.calculate_profit]
        rw [if_neg hd, if_pos hw, hcast, if_neg (by exact_mod_cast hk0),
          pyIndex_natCast, get?_eq_getD stakes _ 0 hkl]
        rfl
    · refine ⟨-(App.pySlice stakes
          (min (g : Int) ((stakes.length : Int) - 1) + 1)).sum, ?_⟩
      simp only [GestaoRisco.calculate_profit]
      rw [if_neg hd, if_neg hw]

theorem simulate_some (rs : List TRec) :
    ∀ (c : ℚ) (stakes : List ℚ) (payout : ℚ), stakes ≠ [] →
    ∃ curve, GestaoRisco.simulate_equity_curve rs c stakes payout = some curve ∧
      curve.length = rs.length + 1 ∧ curve.head? = some c := by
  induction rs with
  | nil => exact fun c st p _ => ⟨[c], rfl, rfl, rfl⟩
  | cons r t ih =>
    intro c st p h
    obtain ⟨q, hq⟩ := calculate_profit_total r.result r.gale_level st p h
    obtain ⟨cur, hcur, hlength, hhead⟩ := ih (c + q) st p h
    refine ⟨c :: cur, ?_, by simp [hlength], rfl⟩
    simp [GestaoRisco.simulate_equity_curve, hq, hcur]

theorem dd_scan_max_dd_nonneg :
    ∀ (l : List ℚ) (st : GestaoRisco.DDState), 0 ≤ st.max_dd →
      0 ≤ (l.foldl GestaoRisco.dd_step st).max_dd
  | [], _, h => h
  | b :: t, st, h => by
    apply dd_scan_max_dd_nonneg t
    unfold GestaoRisco.dd_step
    dsimp only
    by_cases hdd : (if b > st.peak then b else st.peak) - b > st.max_dd
    · rw [if_pos hdd]
      linarith
    · rw [if_neg hdd]
      exact h

theorem dd_scan_min_balance_le :
    ∀ (l : List ℚ) (st : GestaoRisco.DDState),
      (l.foldl GestaoRisco.dd_step st).min_balance ≤ st.min_balance
  | [], _ => le_refl _
  | b :: t, st => by
    refine le_trans (dd_scan_min_balance_le t _) ?_
    unfold GestaoRisco.dd_step
    dsimp only
    by_cases hb : b < st.min_balance
    · rw [if_pos hb]
      linarith
    · rw [if_neg hb]

/-- C5: for every record sequence, capital, nonempty stake ladder and
payout, the simulation produces a curve of one point per record plus the
initial entry, beginning exactly at the capital; the forward drawdown scan
yields a maximum drawdown that is never negative and a minimum balance
never above the initial capital. -/
theorem C5_equity_curve_invariants (rs : List TRec) (capital : ℚ)
    (stakes : List ℚ) (payout : ℚ) (hne : stakes ≠ []) :
    ∃ curve,
      GestaoRisco.simulate_equity_curve rs capital stakes payout = some curve ∧
      curve.length = rs.length + 1 ∧
      curve.head? = some capital ∧
      0 ≤ (GestaoRisco.drawdown_scan curve capital).max_dd ∧
      (GestaoRisco.drawdown_scan curve capital).min_balance ≤ capital := by
  obtain ⟨curve, h1, h2, h3⟩ := simulate_some rs capital stakes payout hne
  exact ⟨curve, h1, h2, h3,
    dd_scan_max_dd_nonneg curve _ (le_refl 0),
    dd_scan_min_balance_le curve _⟩

/-- Witness for C5 at a one-record LOSS sequence. -/
theorem C5_equity_curve_invariants_witness :
    ∃ curve,
      GestaoRisco.simulate_equity_curve [⟨"LOSS", 2⟩] 500 [2] (17/20) =
        some curve ∧
      curve.length = 2 ∧ curve.head? = some 500 := by
  obtain ⟨c, h1, h2, h3, _, _⟩ :=
    C5_equity_curve_invariants [⟨"LOSS", 2⟩] 500 [2] (17/20) (by decide)
  exact ⟨c, h1, h2, h3⟩

/-! ## Lemmas for the win-rate denominators -/

theorem mul_div_bounds (w t : Nat) (hwt : w ≤ t) :
    0 ≤ 100 * (w : ℚ) / (t : ℚ) ∧ 100 * (w : ℚ) / (t : ℚ) ≤ 100 := by
  rcases Nat.eq_zero_or_pos t with ht | ht
  · have hw : w = 0 := by omega
    subst ht; subst hw
    norm_num
  · have htq : (0 : ℚ) < (t : ℚ) := by exact_mod_cast ht
    constructor
    · positivity
    · rw [div_le_iff htq]
      have : (w : ℚ) ≤ (t : ℚ) := by exact_mod_cast hwt
      linarith

theorem hour_total_split (rs : List App.AppRec) (h : Nat)
    (htr : ∀ r ∈ rs, r.result = "WIN" ∨ r.result = "LOSS" ∨ r.result = "DOJI") :
    App.hour_total rs h =
      App.hour_wins rs h + App.hour_losses rs h + App.hour_dojis rs h := by
  have key := countP_result_tri (fun r : App.AppRec => r.result)
    (fun r => decide (r.hour = h)) rs htr
  rw [App.hour_total, App.hour_wins, App.hour_losses, App.hour_dojis]
  rw [key]
  congr 1
  · congr 1
    · exact List.countP_congr (fun a _ => by simp)
    · exact List.countP_congr (fun a _ => by simp)
  · exact List.countP_congr (fun a _ => by simp)

theorem total_g_split (rs : List TRec) (g : Nat)
    (htr : ∀ r ∈ rs, r.result = "WIN" ∨ r.result = "LOSS" ∨ r.result = "DOJI") :
    QualidadeSala.total_g rs g =
      QualidadeSala.wins_g rs g + QualidadeSala.losses_g rs g +
        QualidadeSala.dojis_g rs g := by
  have key := countP_result_tri (fun r : TRec => r.result)
    (fun r => decide (r.gale_level = g)) rs htr
  rw [QualidadeSala.total_g, QualidadeSala.wins_g, QualidadeSala.losses_g,
    QualidadeSala.dojis_g]
  rw [key]
  congr 1
  · congr 1
    · exact List.countP_congr (fun a _ => by simp)
    · exact List.countP_congr (fun a _ => by simp)
  · exact List.countP_congr (fun a _ => by simp)

theorem app_dojis_eq (rs : List App.AppRec)
    (htr : ∀ r ∈ rs, r.result = "WIN" ∨ r.result = "LOSS" ∨ r.result = "DOJI") :
    App.dojis rs = rs.countP (fun r => decide (r.result = "DOJI")) := by
  rw [App.dojis]
  have hb : rs.countP (fun r => decide (r.result = "Doji")) = 0 := by
    rw [List.countP_eq_zero]
    intro a hma
    rcases htr a hma with h1 | h1 | h1 <;> simp [h1]
  rcases Nat.eq_zero_or_pos (rs.countP (fun r => decide (r.result = "DOJI")))
    with ha | ha
  · simp [ha, hb]
  · simp [Nat.pos_iff_ne_zero.mp ha]

theorem app_length_split (rs : List App.AppRec)
    (htr : ∀ r ∈ rs, r.result = "WIN" ∨ r.result = "LOSS" ∨ r.result = "DOJI") :
    rs.length = App.wins rs + App.losses rs +
      rs.countP (fun r => decide (r.result = "DOJI")) := by
  have key := countP_result_tri (fun r : App.AppRec => r.result)
    (fun _ => true) rs htr
  simp only [Bool.true_and] at key
  rw [List.countP_true] at key
  rw [App.wins, App.losses]
  exact key

theorem app_win_rate_eq_spec (rs : List App.AppRec)
    (htr : ∀ r ∈ rs, r.result = "WIN" ∨ r.result = "LOSS" ∨ r.result = "DOJI") :
    App.win_rate rs = specWinRate (App.wins rs) (App.losses rs) := by
  have hres : App.resolved_count rs = App.wins rs + App.losses rs := by
    rw [App.resolved_count, app_dojis_eq rs htr]
    have := app_length_split rs htr
    omega
  rw [App.win_rate, hres, specWinRate]
  rcases Nat.eq_zero_or_pos (App.wins rs + App.losses rs) with h0 | h0
  · rw [if_neg (by omega), if_pos h0]
  · rw [if_pos h0, if_neg (by omega)]
    push_cast
    ring

/-- C3 (amended): the global win rates follow the spec formula
`wins / (wins + losses) × 100` (0 on an empty denominator), and so does the
per-hour table of `validacao_horarios`; but `summarize_resolved`'s hourly
table divides wins by the hour's TOTAL operation count (DOJI included in
the denominator), and `qualidade_sala`'s per-gale-level rates divide by
all records at the level (DOJI included as well). Every one of these
figures still lies in [0, 100] and is 0 whenever its denominator is
empty. -/
theorem C3_win_rate_denominators :
    (∀ rs : List App.AppRec,
        (∀ r ∈ rs, r.result = "WIN" ∨ r.result = "LOSS" ∨ r.result = "DOJI") →
        App.win_rate rs = specWinRate (App.wins rs) (App.losses rs) ∧
        0 ≤ App.win_rate rs ∧ App.win_rate rs ≤ 100)
  ∧ (∀ (rs : List App.AppRec) (h : Nat),
        (0 ≤ App.hourly_win_rate rs h ∧ App.hourly_win_rate rs h ≤ 100) ∧
        ((∀ r ∈ rs, r.result = "WIN" ∨ r.result = "LOSS" ∨ r.result = "DOJI") →
          App.hourly_win_rate rs h =
            100 * (App.hour_wins rs h : ℚ) /
              ((App.hour_wins rs h : ℚ) + (App.hour_losses rs h : ℚ) +
                (App.hour_dojis rs h : ℚ))))
  ∧ (∀ (rs : List TRec) (g : Nat),
        (0 ≤ QualidadeSala.win_rate_g rs g ∧
          QualidadeSala.win_rate_g rs g ≤ 100) ∧
        ((∀ r ∈ rs, r.result = "WIN" ∨ r.result = "LOSS" ∨ r.result = "DOJI") →
          0 < QualidadeSala.total_g rs g →
          QualidadeSala.win_rate_g rs g =
            100 * (QualidadeSala.wins_g rs g : ℚ) /
              ((QualidadeSala.wins_g rs g : ℚ) +
                (QualidadeSala.losses_g rs g : ℚ) +
                (QualidadeSala.dojis_g rs g : ℚ))))
  ∧ (∀ (rs : List ValidacaoHorarios.VRec) (h : Nat),
        ValidacaoHorarios.hourly_win_rate rs h =
          specWinRate (ValidacaoHorarios.hwins rs h)
            (ValidacaoHorarios.hlosses rs h) ∧
        0 ≤ ValidacaoHorarios.hourly_win_rate rs h ∧
        ValidacaoHorarios.hourly_win_rate rs h ≤ 100)
  ∧ (∀ w l : Nat, w + l = 0 → specWinRate w l = 0) := by
  refine ⟨?_, ?_, ?_, ?_, ?_⟩
  · intro rs htr
    have he := app_win_rate_eq_spec rs htr
    exact ⟨he, by rw [he]; exact specWinRate_nonneg _ _,
      by rw [he]; exact specWinRate_le_100 _ _⟩
  · intro rs h
    have hle : App.hour_wins rs h ≤ App.hour_total rs h := by
      apply List.countP_mono_left
      intro a _ hp
      simp only [decide_eq_true_eq] at hp ⊢
      exact hp.1
    constructor
    · exact mul_div_bounds _ _ hle
    · intro htr
      rw [App.hourly_win_rate, hour_total_split rs h htr]
      push_cast
      ring_nf
  · intro rs g
    have hle : QualidadeSala.wins_g rs g ≤ QualidadeSala.total_g rs g := by
      apply List.countP_mono_left
      intro a _ hp
      simp only [decide_eq_true_eq] at hp ⊢
      exact hp.1
    have heqforms : (QualidadeSala.wins_g rs g : ℚ) /
        (QualidadeSala.total_g rs g : ℚ) * 100 =
        100 * (QualidadeSala.wins_g rs g : ℚ) /
          (QualidadeSala.total_g rs g : ℚ) := by ring
    refine ⟨⟨?_, ?_⟩, ?_⟩
    · rw [QualidadeSala.win_rate_g]
      split
      · rename_i hpos
        have htq : ((QualidadeSala.total_g rs g : ℚ)) ≠ 0 := by
          have h1 : (0 : ℚ) < (QualidadeSala.total_g rs g : ℚ) := by
            exact_mod_cast hpos
          exact ne_of_gt h1
        rw [QualidadeSala.safe_div, if_pos htq, heqforms]
        exact (mul_div_bounds _ _ hle).1
      · exact le_refl 0
    · rw [QualidadeSala.win_rate_g]
      split
      · rename_i hpos
        have htq : ((QualidadeSala.total_g rs g : ℚ)) ≠ 0 := by
          have h1 : (0 : ℚ) < (QualidadeSala.total_g rs g : ℚ) := by
            exact_mod_cast hpos
          exact ne_of_gt h1
        rw [QualidadeSala.safe_div, if_pos htq, heqforms]
        exact (mul_div_bounds _ _ hle).2
      · norm_num
    · intro htr hpos
      have htq : ((QualidadeSala.total_g rs g : ℚ)) ≠ 0 := by
        have h1 : (0 : ℚ) < (QualidadeSala.total_g rs g : ℚ) := by
          exact_mod_cast hpos
        exact ne_of_gt h1
      rw [QualidadeSala.win_rate_g, if_pos hpos, QualidadeSala.safe_div,
        if_pos htq, heqforms, total_g_split rs g htr]
      push_cast
      ring
  · intro rs h
    have he : ValidacaoHorarios.hourly_win_rate rs h =
        ratePct (ValidacaoHorarios.hwins rs h) (ValidacaoHorarios.hlosses rs h) :=
      rfl
    rw [he, ratePct_eq_spec]
    exact ⟨rfl, specWinRate_nonneg _ _, specWinRate_le_100 _ _⟩
  · intro w l h0
    rw [specWinRate, if_pos h0]

/-- Witness for C3 (amended) at a concrete two-record hour group. -/
theorem C3_win_rate_denominators_witness :
    App.win_rate [exWinRec14, exDojiRec14] =
      specWinRate (App.wins [exWinRec14, exDojiRec14])
        (App.losses [exWinRec14, exDojiRec14]) ∧
    0 ≤ App.hourly_win_rate [exWinRec14, exDojiRec14] 14 := by
  exact ⟨(C3_win_rate_denominators.1 [exWinRec14, exDojiRec14] (by decide)).1,
    (C3_win_rate_denominators.2.1 [exWinRec14, exDojiRec14] 14).1.1⟩

/-! ## Lemmas for the record invariants -/

theorem matchResolved_empty : matchResolved (pyCollapse "") = Option.none := rfl

theorem recOf_isSome (m : Msg) :
    (GestaoRisco.recOf m).isSome =
      (matchResolved (pyCollapse (get_text_from_msg m))).isSome := by
  rw [GestaoRisco.recOf]
  by_cases ht : get_text_from_msg m = ""
  · rw [if_pos ht, ht, matchResolved_empty]
    rfl
  · rw [if_neg ht]
    cases matchResolved (pyCollapse (get_text_from_msg m)) <;> rfl

/-- C9: every record of `gestao_risco._extract_records` carries a result
that is exactly one of WIN/LOSS/DOJI and a gale level given by
`sup_to_level` of the captured superscript mark — a table sending
¹/²/³/"1"/"2"/"3" to 1/2/3 and everything else (absence included) to 0,
so levels stay within 0..3; and the extractor emits exactly one record per
message whose one-line-collapsed text matches the resolved-line pattern,
none otherwise. -/
theorem C9_record_invariants :
    (sup_to_level "¹" = 1 ∧ sup_to_level "²" = 2 ∧ sup_to_level "³" = 3 ∧
      sup_to_level "1" = 1 ∧ sup_to_level "2" = 2 ∧ sup_to_level "3" = 3)
  ∧ (∀ s : String, s ∉ ["¹", "²", "³", "1", "2", "3"] → sup_to_level s = 0)
  ∧ (∀ s : String, sup_to_level s ≤ 3)
  ∧ (∀ (m : Msg) (r : TRec), GestaoRisco.recOf m = some r →
      (r.result = "WIN" ∨ r.result = "LOSS" ∨ r.result = "DOJI") ∧
      ∃ caps : RCaps,
        matchResolved (pyCollapse (get_text_from_msg m)) = some caps ∧
        r.gale_level = sup_to_level caps.sup)
  ∧ (∀ msgs : List Msg,
      (GestaoRisco.extract_records msgs).length =
        msgs.countP (fun m =>
          (matchResolved (pyCollapse (get_text_from_msg m))).isSome)) := by
  refine ⟨by decide, ?_, ?_, ?_, ?_⟩
  · intro s hs
    simp only [List.mem_cons, List.not_mem_nil, or_false, not_or] at hs
    obtain ⟨h1, h2, h3, h4, h5, h6⟩ := hs
    rw [sup_to_level]
    by_cases h0 : s = ""
    · rw [if_pos h0]
    · rw [if_neg h0]
      simp [SUPERSCRIPT_MAP, List.find?, Ne.symm h1, Ne.symm h2, Ne.symm h3,
        Ne.symm h4, Ne.symm h5, Ne.symm h6]
  · intro s
    rw [sup_to_level]
    split
    · exact Nat.zero_le 3
    · simp only [SUPERSCRIPT_MAP, List.find?]
      cases h1 : decide ("¹" = s) <;> cases h2 : decide ("²" = s) <;>
        cases h3 : decide ("³" = s) <;> cases h4 : decide ("1" = s) <;>
        cases h5 : decide ("2" = s) <;> cases h6 : decide ("3" = s) <;>
        simp [h1, h2, h3, h4, h5, h6]
  · intro m r hmr
    rw [GestaoRisco.recOf] at hmr
    by_cases ht : get_text_from_msg m = ""
    · rw [if_pos ht] at hmr
      exact absurd hmr (by simp)
    · rw [if_neg ht] at hmr
      rcases hcaps : matchResolved (pyCollapse (get_text_from_msg m)) with _ | caps
      · rw [hcaps] at hmr
        exact absurd hmr (by simp)
      · rw [hcaps] at hmr
        simp only [Option.map_some', Option.some.injEq] at hmr
        subst hmr
        refine ⟨?_, caps, rfl, rfl⟩
        dsimp only
        split
        · right; right; rfl
        · split
          · left; rfl
          · right; left; rfl
  · intro msgs
    rw [GestaoRisco.extract_records, length_filterMap_countP]
    exact List.countP_congr (fun m _ => by rw [recOf_isSome])

/-- Witness for C9: the default level on an unmapped mark and the one
record extracted from the round-trip example message. -/
theorem C9_record_invariants_witness :
    sup_to_level "x" = 0 ∧
    (GestaoRisco.extract_records [exResolvedMsg]).length = 1 := by
  constructor
  · exact C9_record_invariants.2.1 "x" (by decide)
  · rw [C9_record_invariants.2.2.2.2 [exResolvedMsg]]
    decide

/-! ## Lemmas for the two-pass correlation -/

theorem foldl_pass1_id (B : List Msg)
    (hB : ∀ b ∈ B, ValidacaoHorarios.sigOf b = Option.none) :
    ∀ tb, B.foldl ValidacaoHorarios.pass1_step tb = tb := by
  induction B with
  | nil => intro tb; rfl
  | cons b t ih =>
    intro tb
    have hb := hB b (List.mem_cons_self b t)
    rw [List.foldl_cons, ValidacaoHorarios.pass1_step, hb]
    exact ih (fun x hx => hB x (List.mem_cons_of_mem b hx)) tb

theorem recOf_none_of_nomatch (tb : List ((String × String) × Option ℚ))
    (m : Msg)
    (h : matchResolved (pyCollapse (get_text_from_msg m)) = Option.none) :
    ValidacaoHorarios.recOf tb m = Option.none := by
  rw [ValidacaoHorarios.recOf]
  by_cases ht : get_text_from_msg m = ""
  · rw [if_pos ht]
  · rw [if_neg ht, h]
    rfl

/-- C1 (amended): the two-pass algorithm is what the analysis modules'
extractor (`validacao_horarios._extract_records` and its twins) runs:
pass 1 folds every message into the payout lookup — last write wins, the
key needs instrument and time only, the stored payout may be null — and
pass 2 resolves each record's payout from that completed table, so moving
an open-signal message across non-signal messages (in particular across
its own resolved line) never changes the output. `app.extract_records`
instead fills the table in the same single pass and only stores signals
whose payout parsed, so there the correlation is order-dependent (the
counterexample). -/
theorem C1_two_pass_payout_correlation :
    (∀ (A B C : List Msg) (s : Msg),
        (∀ b ∈ B, ValidacaoHorarios.sigOf b = Option.none) →
        matchResolved (pyCollapse (get_text_from_msg s)) = Option.none →
        ValidacaoHorarios.extract_records (A ++ B ++ s :: C) =
          ValidacaoHorarios.extract_records (A ++ s :: (B ++ C)))
  ∧ (∀ (msgs : List Msg) (m : Msg),
        ValidacaoHorarios.pass1 (msgs ++ [m]) =
          match ValidacaoHorarios.sigOf m with
          | some kp => kp :: ValidacaoHorarios.pass1 msgs
          | Option.none => ValidacaoHorarios.pass1 msgs)
  ∧ (∀ (tb : List ((String × String) × Option ℚ)) (m : Msg)
        (r : ValidacaoHorarios.VRec),
        ValidacaoHorarios.recOf tb m = some r →
        r.payout = (ValidacaoHorarios.lookupSig tb (r.pair, r.time)).join)
  ∧ (ValidacaoHorarios.extract_records [exResolvedMsg, exSigMsg]).map
      (·.payout) = [some (87 / 100)]
  ∧ (ValidacaoHorarios.extract_records [exSigMsg, exResolvedMsg]).map
      (·.payout) = [some (87 / 100)] := by
  refine ⟨?_, ?_, ?_, rfl, rfl⟩
  · intro A B C s hB hs
    have htab : ValidacaoHorarios.pass1 (A ++ B ++ s :: C) =
        ValidacaoHorarios.pass1 (A ++ s :: (B ++ C)) := by
      rw [ValidacaoHorarios.pass1, ValidacaoHorarios.pass1]
      simp only [List.foldl_append, List.foldl_cons]
      simp only [foldl_pass1_id B hB]
    rw [ValidacaoHorarios.extract_records, ValidacaoHorarios.extract_records,
      htab]
    have hfs : ValidacaoHorarios.recOf
        (ValidacaoHorarios.pass1 (A ++ s :: (B ++ C))) s = Option.none :=
      recOf_none_of_nomatch _ s hs
    simp only [List.filterMap_append, List.filterMap_cons, hfs]
    rw [List.append_assoc]
  · intro msgs m
    rw [ValidacaoHorarios.pass1, List.foldl_append]
    cases h : ValidacaoHorarios.sigOf m <;>
      simp [ValidacaoHorarios.pass1_step, h, ValidacaoHorarios.pass1]
  · intro tb m r hmr
    rw [ValidacaoHorarios.recOf] at hmr
    by_cases ht : get_text_from_msg m = ""
    · rw [if_pos ht] at hmr
      exact absurd hmr (by simp)
    · rw [if_neg ht] at hmr
      rcases hcaps : matchResolved (pyCollapse (get_text_from_msg m))
        with _ | caps
      · rw [hcaps] at hmr
        exact absurd hmr (by simp)
      · rw [hcaps] at hmr
        simp only [Option.map_some', Option.some.injEq] at hmr
        subst hmr
        rfl

/-- Witness for C1 (amended): swapping the open signal across its resolved
line leaves the extraction unchanged. -/
theorem C1_two_pass_payout_correlation_witness :
    ValidacaoHorarios.extract_records ([] ++ [exResolvedMsg] ++ exSigMsg :: []) =
      ValidacaoHorarios.extract_records
        ([] ++ exSigMsg :: ([exResolvedMsg] ++ [])) :=
  C1_two_pass_payout_correlation.1 [] [exResolvedMsg] [] exSigMsg
    (by decide) (by decide)

/-! ## Lemmas for the date normalizer on digit-only strings -/

theorem digit_not_space (c : Char) (h : c.isDigit = true) :
    isPySpace c = false := by
  have h1 : ¬(c = ' ') := fun he => absurd (he ▸ h) (by decide)
  have h2 : ¬(c = '\t') := fun he => absurd (he ▸ h) (by decide)
  have h3 : ¬(c = '\n') := fun he => absurd (he ▸ h) (by decide)
  have h4 : ¬(c = '\r') := fun he => absurd (he ▸ h) (by decide)
  have h5 : ¬(c = '\x0b') := fun he => absurd (he ▸ h) (by decide)
  have h6 : ¬(c = '\x0c') := fun he => absurd (he ▸ h) (by decide)
  rw [isPySpace]
  simp [h1, h2, h3, h4, h5, h6]

theorem dropWhile_digits (l : List Char) (h : l.all Char.isDigit = true) :
    l.dropWhile Char.isDigit = [] := by
  rw [List.dropWhile_eq_nil_iff]
  intro x hx
  exact List.all_eq_true.mp h x hx

theorem pyStrip_digits (s : String) (h : s.data.all Char.isDigit = true) :
    pyStrip s = s := by
  have hfix : ∀ l : List Char, l.all Char.isDigit = true →
      l.dropWhile isPySpace = l := by
    intro l hl
    cases l with
    | nil => rfl
    | cons c t =>
      rw [List.dropWhile_cons]
      simp only [List.all_cons, Bool.and_eq_true] at hl
      rw [digit_not_space c hl.1]
      simp
  rw [pyStrip, pyStripList]
  rw [hfix s.data h]
  rw [hfix s.data.reverse (by simpa using h)]
  rw [List.reverse_reverse]

theorem readRun_digits_rest {lo hi : Nat} (l : List Char)
    (h : l.all Char.isDigit = true) (pr : Nat × List Char)
    (hr : App.readRun lo hi l = some pr) : pr.2 = [] := by
  rw [App.readRun] at hr
  split at hr
  · simp only [Option.some.injEq] at hr
    rw [← hr]
    exact dropWhile_digits l h
  · exact absurd hr (by simp)

theorem parseFmtYmdT_digits (l : List Char) (h : l.all Char.isDigit = true) :
    App.parseFmtYmdT l = Option.none := by
  rw [App.parseFmtYmdT]
  cases hr : App.readRun 1 4 l with
  | none => rfl
  | some pr =>
    obtain ⟨y, r1⟩ := pr
    have h2 : r1 = [] := readRun_digits_rest l h (y, r1) hr
    subst h2
    simp [App.expectCh]

theorem parseFmtYmdSp_digits (l : List Char) (h : l.all Char.isDigit = true) :
    App.parseFmtYmdSp l = Option.none := by
  rw [App.parseFmtYmdSp]
  cases hr : App.readRun 1 4 l with
  | none => rfl
  | some pr =>
    obtain ⟨y, r1⟩ := pr
    have h2 : r1 = [] := readRun_digits_rest l h (y, r1) hr
    subst h2
    simp [App.expectCh]

theorem parseFmtYmd_digits (l : List Char) (h : l.all Char.isDigit = true) :
    App.parseFmtYmd l = Option.none := by
  rw [App.parseFmtYmd]
  cases hr : App.readRun 1 4 l with
  | none => rfl
  | some pr =>
    obtain ⟨y, r1⟩ := pr
    have h2 : r1 = [] := readRun_digits_rest l h (y, r1) hr
    subst h2
    simp [App.expectCh]

theorem parseFmtDmy_digits (l : List Char) (h : l.all Char.isDigit = true) :
    App.parseFmtDmy l = Option.none := by
  rw [App.parseFmtDmy]
  cases hr : App.readRun 1 2 l with
  | none => rfl
  | some pr =>
    obtain ⟨y, r1⟩ := pr
    have h2 : r1 = [] := readRun_digits_rest l h (y, r1) hr
    subst h2
    simp [App.expectCh]

theorem strptimeFormats_digits (l : List Char)
    (h : l.all Char.isDigit = true) : App.strptimeFormats l = Option.none := by
  rw [App.strptimeFormats, parseFmtYmdT_digits l h, parseFmtYmdSp_digits l h,
    parseFmtYmd_digits l h, parseFmtDmy_digits l h]
  rfl

theorem fromisoformatDate_digits (l : List Char)
    (h : l.all Char.isDigit = true) : App.fromisoformatDate l = Option.none := by
  rw [App.fromisoformatDate]
  cases hr : App.readRun 4 4 l with
  | none => rfl
  | some pr =>
    obtain ⟨y, r1⟩ := pr
    have h2 : r1 = [] := readRun_digits_rest l h (y, r1) hr
    subst h2
    simp [App.expectCh]

theorem getLast?_mem_list {α : Type} :
    ∀ (l : List α) (a : α), l.getLast? = some a → a ∈ l
  | [], _, h => by simp at h
  | [x], a, h => by
    simp only [List.getLast?_singleton, Option.some.injEq] at h
    subst h
    exact List.mem_singleton_self x
  | x :: y :: t, a, h => by
    rw [List.getLast?_cons_cons] at h
    exact List.mem_cons_of_mem x (getLast?_mem_list (y :: t) a h)

theorem getLast_not_Z (l : List Char) (h : l.all Char.isDigit = true) :
    ¬(l.getLast? = some 'Z') := by
  intro hz
  have hm := getLast?_mem_list l 'Z' hz
  have := List.all_eq_true.mp h 'Z' hm
  simp at this

/-- C8 (amended): a nonempty all-digit string is always handled by the
epoch stage — milliseconds when the integer exceeds 10¹², else seconds —
and the result of the whole normalizer IS the epoch stage's result: the
format patterns and `fromisoformat` can never parse a digit-only string,
so even when the epoch is out of `fromtimestamp`'s range (and the code
then does fall through to the format stage) the outcome is the
unparseable `none` sentinel, not a format-stage date and not an
exception. In-range values produce the (UTC-modelled) epoch day; both
spec examples parse non-null, and a garbage string yields `none`. -/
theorem C8_numeric_epoch :
    (∀ s : String, s ≠ "" → s.data.all Char.isDigit = true →
        App.try_parse_iso_date s = App.epochStage s.data
      ∧ (natOfDigits s.data ≤ 253402300799 →
          App.try_parse_iso_date s =
            some (Int.floor ((natOfDigits s.data : ℚ) / 86400)))
      ∧ ((10 : ℚ) ^ 12 < (natOfDigits s.data : ℚ) →
          (natOfDigits s.data : ℚ) ≤ 253402300799000 →
          App.try_parse_iso_date s =
            some (Int.floor ((natOfDigits s.data : ℚ) / 1000 / 86400))))
  ∧ App.try_parse_iso_date "1700000000" = some 19675
  ∧ App.try_parse_iso_date "1700000000000" = some 19675
  ∧ App.try_parse_iso_date "not-a-date" = Option.none := by
  refine ⟨?_, by with_unfolding_all rfl, by with_unfolding_all rfl,
    by with_unfolding_all rfl⟩
  intro s hne hdig
  have hstrip : pyStrip s = s := pyStrip_digits s hdig
  have hl_ne : s.data ≠ [] := by
    intro h0
    apply hne
    cases s with
    | mk d =>
      simp only [String.data] at h0
      rw [h0]
  have hstage : App.try_parse_iso_date s = App.epochStage s.data := by
    rw [App.try_parse_iso_date, if_neg hne, hstrip]
    cases he : App.epochStage s.data with
    | some d => simp only [he]
    | none =>
      simp only [he]
      rw [if_neg (getLast_not_Z s.data hdig)]
      rw [strptimeFormats_digits s.data hdig,
        fromisoformatDate_digits s.data hdig]
      rfl
  refine ⟨hstage, ?_, ?_⟩
  · intro hle
    have hleq : (natOfDigits s.data : ℚ) ≤ 253402300799 := by
      exact_mod_cast hle
    have hgt : ¬((natOfDigits s.data : ℚ) > 10 ^ 12) := by
      push_neg
      have hb : (253402300799 : ℚ) ≤ 10 ^ 12 := by norm_num
      linarith
    rw [hstage, App.epochStage, if_pos ⟨hl_ne, hdig⟩, if_neg hgt,
      App.fromtimestamp_date, if_pos ?_]
    constructor
    · rw [App.TS_MIN]
      have : (0 : ℚ) ≤ (natOfDigits s.data : ℚ) := by positivity
      linarith
    · rw [App.TS_MAX]
      exact hleq
  · intro hgt hle
    rw [hstage, App.epochStage, if_pos ⟨hl_ne, hdig⟩, if_pos hgt,
      App.fromtimestamp_date, if_pos ?_]
    constructor
    · rw [App.TS_MIN]
      have h0 : (0 : ℚ) ≤ (natOfDigits s.data : ℚ) := by positivity
      have h1000 : (0 : ℚ) < 1000 := by norm_num
      have : (0 : ℚ) ≤ (natOfDigits s.data : ℚ) / 1000 := by positivity
      linarith
    · rw [App.TS_MAX]
      rw [div_le_iff (by norm_num : (0 : ℚ) < 1000)]
      linarith

/-- Witness for C8 (amended) at the 10-digit seconds example. -/
theorem C8_numeric_epoch_witness :
    App.try_parse_iso_date "1700000000" = App.epochStage "1700000000".data :=
  (C8_numeric_epoch.1 "1700000000" (by decide) (by decide)).1
